import Mathlib

/-! The isucon8-final log endpoint (`blackbox/logger/main.go`).

A shallow embedding of the per-key admission gate (`Handler.lock` and the release
function it returns) and of the record pipeline (`Handler.putLog`, `Handler.Send`),
followed by the properties proved about them.

Conventions of the embedding:
* a `time.Duration` is an `Int` counting nanoseconds, as in Go;
* an `int64` is an `Int`; where the source can leave the 64-bit range the
  wrap-around is written out (`wrapInt64`);
* `math.Pow` and `math.Floor` are taken at their exact real values
  (`powFloor_eq_floor` below ties the computable definition to the real formula);
* library calls whose behaviour is not in the repository (`json.Unmarshal`,
  `sql.DB.Exec`, `time.Now`) are parameters.
-/

namespace Logger

/-! ## Constants -/

/-- Go's `time.Millisecond`: a `time.Duration` counts nanoseconds. -/
def Millisecond : Int := 1000000

/-- Go's `time.Second`. -/
def Second : Int := 1000 * Millisecond

/-- `MinAppTime = 20 * time.Millisecond`. -/
def MinAppTime : Int := 20 * Millisecond

/-- `MaxAppTime = 1 * time.Second`. -/
def MaxAppTime : Int := 1 * Second

/-- `WorkerPerApp = 2`: the capacity of each key's channel. -/
def WorkerPerApp : Nat := 2

/-! ## The release delay -/

/-- Two's-complement wrap-around of an `int64` result. -/
def wrapInt64 (x : Int) : Int := (x + 2 ^ 63) % 2 ^ 64 - 2 ^ 63

/-- The value of `math.Floor(math.Pow(2.0, float64(w)/2.0)*2.0)`, computed exactly:
`2^(w/2) * 2` is the square root of `2^(w+2)` (of `4 / 2^(-w)` for a negative `w`),
and the floor of a square root is the integer square root of the floor. -/
def powFloor (w : Int) : Nat :=
  if 0 ≤ w then Nat.sqrt (2 ^ (w.toNat + 2)) else Nat.sqrt (4 / 2 ^ (-w).toNat)

/-- The conversion `int64(x)` of a non-negative integral float. Below `2^63` it is the
value itself. From `2^63` on the result is implementation-dependent in Go; `ovf` is
what the platform yields there (`-2^63` on amd64, `2^63 - 1` where the conversion
saturates, as on arm64). -/
def int64OfFloat (ovf : Int) (x : Nat) : Int :=
  if x < 2 ^ 63 then (x : Int) else wrapInt64 ovf

/-- The duration `wt` the release function of `Handler.lock` passes to `time.Sleep`:
`time.Duration(int64(...)) + MinAppTime`, cut down to `MaxAppTime` when larger. -/
def releaseDelay (ovf : Int) (w : Int) : Int :=
  let wt := wrapInt64 (int64OfFloat ovf (powFloor w) + MinAppTime)
  if wt > MaxAppTime then MaxAppTime else wt

/-- What `time.Sleep(d)` waits for: a negative or zero duration returns at once. -/
def sleepTime (d : Int) : Int := if d ≤ 0 then 0 else d

/-! ## The admission gate: `Handler.lock` -/

/-- The fields `guard` and `waiting` of `Handler`. A key's channel is the number of
values buffered in it (its capacity is `WorkerPerApp`); a key's counter is the `int64`
the map's pointer refers to. An absent key is `none`. -/
structure Handler where
  guard : String → Option Nat
  waiting : String → Option Int

/-- The `Handler` built by `NewServer`: both maps empty. -/
def Handler.empty : Handler := ⟨fun _ => none, fun _ => none⟩

/-- The number of occupied slots of a key (an absent channel holds none). -/
def Handler.slots (s : Handler) (appid : String) : Nat := (s.guard appid).getD 0

/-- The waiting counter of a key (zero when not yet created). -/
def Handler.count (s : Handler) (appid : String) : Int := (s.waiting appid).getD 0

/-- The block of `lock` run under `s.mux`: the key's channel and counter are created
when absent (an empty channel, a zero counter). -/
def Handler.ensure (s : Handler) (appid : String) : Handler :=
  { guard := fun k =>
      if k = appid then (match s.guard appid with | some n => some n | none => some 0)
      else s.guard k
    waiting := fun k =>
      if k = appid then (match s.waiting appid with | some c => some c | none => some 0)
      else s.waiting k }

/-- The call `atomic.AddInt64(s.waiting[appid], delta)`: the counter is changed by
`delta` and the NEW value is returned. The call is only made after `ensure` has
created the counter; the count of requests in the gate stays far inside the `int64`
range, so no wrap-around is written. -/
def Handler.addWaiting (s : Handler) (appid : String) (delta : Int) : Handler × Int :=
  let v := s.count appid + delta
  ({ guard := s.guard, waiting := fun k => if k = appid then some v else s.waiting k }, v)

/-- The entry of `lock(appid)` up to the channel send: the state is ensured and
`w := atomic.AddInt64(s.waiting[appid], 1)` is taken. -/
def Handler.enter (s : Handler) (appid : String) : Handler × Int :=
  (s.ensure appid).addWaiting appid 1

/-- The send `s.guard[appid] <- struct{}{}`: it goes through when the channel holds
fewer than `WorkerPerApp` values, and blocks (`none`) otherwise. -/
def Handler.send (s : Handler) (appid : String) : Option Handler :=
  match s.guard appid with
  | some n =>
    if n < WorkerPerApp then
      some { guard := fun k => if k = appid then some (n + 1) else s.guard k
             waiting := s.waiting }
    else none
  | none => none

/-- The receive `<-s.guard[appid]`: it takes one value out of the channel, and blocks
(`none`) when the channel is empty. -/
def Handler.recv (s : Handler) (appid : String) : Option Handler :=
  match s.guard appid with
  | some (n + 1) =>
    some { guard := fun k => if k = appid then some n else s.guard k
           waiting := s.waiting }
  | _ => none

/-- `Handler.lock` run to its return: the new state and the value `w` captured by the
release function, or `none` when the channel send blocks. -/
def Handler.lock (s : Handler) (appid : String) : Option (Handler × Int) :=
  let r := s.enter appid
  match r.1.send appid with
  | some s2 => some (s2, r.2)
  | none => none

/-- The release function returned by `lock`, for the captured `w`: it sleeps for
`releaseDelay`, decrements the counter, then receives from the channel. The result is
the new state and the duration passed to `time.Sleep`. -/
def Handler.unlock (ovf : Int) (s : Handler) (appid : String) (w : Int) :
    Option (Handler × Int) :=
  let wt := releaseDelay ovf w
  match ((s.addWaiting appid (-1)).1).recv appid with
  | some s2 => some (s2, wt)
  | none => none

/-! ## Records and errors -/

/-- A `json.RawMessage`: the bytes of the payload. -/
abbrev RawMessage := List UInt8

/-- The struct `Log`. -/
structure Log where
  Tag : String
  Time : Int
  Data : RawMessage

/-- The struct `SoloLog`: a `Log` with the application key. -/
structure SoloLog where
  toLog : Log
  AppID : String

/-- The struct `LogDataSignup`. -/
structure LogDataSignup where
  Name : String
  BankID : String
  UserID : Int

/-- The struct `LogDataSignin`. -/
structure LogDataSignin where
  UserID : Int

/-- The struct `LogDataOrder`. -/
structure LogDataOrder where
  UserID : Int
  OrderID : Int
  Amount : Int
  Price : Int

/-- The struct `LogDataBuyError`. -/
structure LogDataBuyError where
  UserID : Int
  Amount : Int
  Price : Int
  Error : String

/-- The struct `LogDataTrade`. -/
structure LogDataTrade where
  TradeID : Int
  Amount : Int
  Price : Int

/-- Modelled from the spec: the type `SellClose` that `putLog` fills for the tag
`sell.close` is not declared in the source file; its fields are the ones `putLog`
reads, which are the required fields of the specification's table
(trade_id, user_id, sell_id, amount, price). -/
structure SellClose where
  TradeID : Int
  UserID : Int
  SellID : Int
  Amount : Int
  Price : Int

/-- Modelled from the spec: the type `BuyClose` that `putLog` fills for the tag
`buy.close` is not declared in the source file; its fields are the ones `putLog`
reads, which are the required fields of the specification's table
(trade_id, user_id, buy_id, amount, price). -/
structure BuyClose where
  TradeID : Int
  UserID : Int
  BuyID : Int
  Amount : Int
  Price : Int

/-- The function `json.Unmarshal` at each of the types `putLog` decodes into: the
decoded value, or the text of the decoding error. -/
structure Unmarshal where
  signup : RawMessage → Except String LogDataSignup
  signin : RawMessage → Except String LogDataSignin
  order : RawMessage → Except String LogDataOrder
  buyError : RawMessage → Except String LogDataBuyError
  trade : RawMessage → Except String LogDataTrade
  sellClose : RawMessage → Except String SellClose
  buyClose : RawMessage → Except String BuyClose

/-- The errors `putLog` returns: a `*badRequestErr` holding its text, or an error
made by `errors.Wrap`/`errors.Wrapf` from a cause and a message, which is not a
`*badRequestErr`. -/
inductive Err where
  | badRequest (s : String)
  | wrap (cause : String) (msg : String)
deriving DecidableEq, Repr

/-- The type assertion `err.(*badRequestErr)` of `Send`. -/
def Err.isBadRequest : Err → Bool
  | .badRequest _ => true
  | .wrap _ _ => false

/-- The method `Error()`: the text of a `badRequestErr`, and `msg: cause` for a
wrapped error. -/
def Err.Error : Err → String
  | .badRequest s => s
  | .wrap cause msg => msg ++ ": " ++ cause

/-- `BadRequestErrorf("%s" ++ rest, tag)`. -/
def BadRequestErrorf (tag : String) (rest : String) : Err := .badRequest (tag ++ rest)

/-- `BadRequestErrorf("%d time is too old", t)`. -/
def timeTooOld (t : Int) : Err := .badRequest (toString t ++ " time is too old")

/-- The constants of `TagType` (`1 + iota`). -/
def TagSignup : Int := 1
/-- See `TagSignup`. -/
def TagSignin : Int := 2
/-- See `TagSignup`. -/
def TagSellOrder : Int := 3
/-- See `TagSignup`. -/
def TagBuyOrder : Int := 4
/-- See `TagSignup`. -/
def TagBuyError : Int := 5
/-- See `TagSignup`: the code of the tag `trade`. -/
def TagClose : Int := 6
/-- See `TagSignup`. -/
def TagSellClose : Int := 7
/-- See `TagSignup`. -/
def TagBuyClose : Int := 8

/-- The arguments of one `s.db.Exec` of the INSERT statement. `time` is the instant
`lt = time.Unix(l.Time, 0)`, which the code passes formatted as a datetime. -/
structure Row where
  appID : String
  tag : Int
  time : Int
  userID : Int
  tradeID : Int
  data : RawMessage
deriving DecidableEq

/-- The storage sink: given the calls made so far and the row of this call, the text
of the error `Exec` returns, or `none` when the insert succeeds. -/
abbrev DB := List Row → Row → Option String

/-! ## `Handler.putLog` -/

/-- The case `"signup"` of the tag switch of `putLog`: the tag code, `userID` and
`tradeID`, or the error returned. -/
def caseSignup (J : Unmarshal) (l : Log) : Except Err (Int × Int × Int) :=
  match J.signup l.Data with
  | .error err => .error (.wrap err (l.Tag ++ " parse data failed"))
  | .ok data =>
    if data.Name = "" then .error (BadRequestErrorf l.Tag " data.name is required")
    else if data.BankID = "" then .error (BadRequestErrorf l.Tag " data.bank_id is required")
    else if data.UserID = 0 then .error (BadRequestErrorf l.Tag " data.user_id is required")
    else .ok (TagSignup, data.UserID, 0)

/-- The case `"signin"` of the tag switch of `putLog`: the tag code, `userID` and
`tradeID`, or the error returned. -/
def caseSignin (J : Unmarshal) (l : Log) : Except Err (Int × Int × Int) :=
  match J.signin l.Data with
  | .error err => .error (.wrap err (l.Tag ++ " parse data failed"))
  | .ok data =>
    if data.UserID = 0 then .error (BadRequestErrorf l.Tag " data.user_id is required")
    else .ok (TagSignin, data.UserID, 0)

/-- The case `"sell.order"` of the tag switch of `putLog`: the tag code, `userID` and
`tradeID`, or the error returned. -/
def caseSellOrder (J : Unmarshal) (l : Log) : Except Err (Int × Int × Int) :=
  match J.order l.Data with
  | .error err => .error (.wrap err "parse data failed")
  | .ok data =>
    if data.UserID = 0 then .error (BadRequestErrorf l.Tag " data.user_id is required")
    else if data.OrderID = 0 then .error (BadRequestErrorf l.Tag " data.order_id is required")
    else if data.Amount = 0 then .error (BadRequestErrorf l.Tag " data.amount is required")
    else if data.Price = 0 then .error (BadRequestErrorf l.Tag " data.price is required")
    else .ok (TagSellOrder, data.UserID, 0)

/-- The case `"buy.order"` of the tag switch of `putLog`: the tag code, `userID` and
`tradeID`, or the error returned. -/
def caseBuyOrder (J : Unmarshal) (l : Log) : Except Err (Int × Int × Int) :=
  match J.order l.Data with
  | .error err => .error (.wrap err "parse data failed")
  | .ok data =>
    if data.UserID = 0 then .error (BadRequestErrorf l.Tag " data.user_id is required")
    else if data.OrderID = 0 then .error (BadRequestErrorf l.Tag " data.order_id is required")
    else if data.Amount = 0 then .error (BadRequestErrorf l.Tag " data.amount is required")
    else if data.Price = 0 then .error (BadRequestErrorf l.Tag " data.price is required")
    else .ok (TagBuyOrder, data.UserID, 0)

/-- The case `"buy.error"` of the tag switch of `putLog`: the tag code, `userID` and
`tradeID`, or the error returned. -/
def caseBuyError (J : Unmarshal) (l : Log) : Except Err (Int × Int × Int) :=
  match J.buyError l.Data with
  | .error err => .error (.wrap err "parse data failed")
  | .ok data =>
    if data.UserID = 0 then .error (BadRequestErrorf l.Tag " data.user_id is required")
    else if data.Error = "" then .error (BadRequestErrorf l.Tag " data.error is required")
    else if data.Amount = 0 then .error (BadRequestErrorf l.Tag " data.amount is required")
    else if data.Price = 0 then .error (BadRequestErrorf l.Tag " data.price is required")
    else .ok (TagBuyError, data.UserID, 0)

/-- The case `"trade"` of the tag switch of `putLog`: the tag code, `userID` and
`tradeID`, or the error returned. -/
def caseTrade (J : Unmarshal) (l : Log) : Except Err (Int × Int × Int) :=
  match J.trade l.Data with
  | .error err => .error (.wrap err "parse data failed")
  | .ok data =>
    if data.TradeID = 0 then .error (BadRequestErrorf l.Tag " data.trade_id is required")
    else if data.Amount = 0 then .error (BadRequestErrorf l.Tag " data.amount is required")
    else if data.Price = 0 then .error (BadRequestErrorf l.Tag " data.price is required")
    else .ok (TagClose, 0, data.TradeID)

/-- The case `"sell.close"` of the tag switch of `putLog`: the tag code, `userID` and
`tradeID`, or the error returned. -/
def caseSellClose (J : Unmarshal) (l : Log) : Except Err (Int × Int × Int) :=
  match J.sellClose l.Data with
  | .error err => .error (.wrap err "parse data failed")
  | .ok data =>
    if data.TradeID = 0 then .error (BadRequestErrorf l.Tag " data.trade_id is required")
    else if data.UserID = 0 then .error (BadRequestErrorf l.Tag " data.user_id is required")
    else if data.SellID = 0 then .error (BadRequestErrorf l.Tag " data.sell_id is required")
    else if data.Amount = 0 then .error (BadRequestErrorf l.Tag " data.amount is required")
    else if data.Price = 0 then .error (BadRequestErrorf l.Tag " data.price is required")
    else .ok (TagSellClose, data.UserID, data.TradeID)

/-- The case `"buy.close"` of the tag switch of `putLog`: the tag code, `userID` and
`tradeID`, or the error returned. -/
def caseBuyClose (J : Unmarshal) (l : Log) : Except Err (Int × Int × Int) :=
  match J.buyClose l.Data with
  | .error err => .error (.wrap err "parse data failed")
  | .ok data =>
    if data.TradeID = 0 then .error (BadRequestErrorf l.Tag " data.trade_id is required")
    else if data.UserID = 0 then .error (BadRequestErrorf l.Tag " data.user_id is required")
    else if data.BuyID = 0 then .error (BadRequestErrorf l.Tag " data.buy_id is required")
    else if data.Amount = 0 then .error (BadRequestErrorf l.Tag " data.amount is required")
    else if data.Price = 0 then .error (BadRequestErrorf l.Tag " data.price is required")
    else .ok (TagBuyClose, data.UserID, data.TradeID)

/-- The `switch l.Tag` of `putLog`: the result of the tag's case, and the error
`unknown tag` in the default case. -/
def putLogSwitch (J : Unmarshal) (l : Log) : Except Err (Int × Int × Int) :=
  if l.Tag = "signup" then caseSignup J l
  else if l.Tag = "signin" then caseSignin J l
  else if l.Tag = "sell.order" then caseSellOrder J l
  else if l.Tag = "buy.order" then caseBuyOrder J l
  else if l.Tag = "buy.error" then caseBuyError J l
  else if l.Tag = "trade" then caseTrade J l
  else if l.Tag = "sell.close" then caseSellClose J l
  else if l.Tag = "buy.close" then caseBuyClose J l
  else .error (BadRequestErrorf l.Tag " unknown tag")

/-- `Handler.putLog`, with `now` the value of `time.Now().Unix()` and `calls` the
calls of `s.db.Exec` made so far: the error returned (`none` for `nil`) and the calls
made once it returns. -/
def putLog (J : Unmarshal) (db : DB) (now : Int) (calls : List Row) (l : Log)
    (appID : String) : Option Err × List Row :=
  if l.Data.length = 0 then (some (BadRequestErrorf l.Tag " data is required"), calls)
  else if l.Time < now - 3600 then (some (timeTooOld l.Time), calls)
  else
    match putLogSwitch J l with
    | .error e => (some e, calls)
    | .ok (tag, userID, tradeID) =>
      let row : Row := ⟨appID, tag, l.Time, userID, tradeID, l.Data⟩
      match db calls row with
      | some err => (some (.wrap err "insert log failed"), calls ++ [row])
      | none => (none, calls ++ [row])

/-! ## `Handler.Send` -/

/-- What a handler writes: the status code and the body. -/
structure Response where
  code : Nat
  body : String
deriving DecidableEq, Repr

/-- `Error(w, err, code)`, that is `http.Error`: the text and a newline. -/
def Error (err : String) (code : Nat) : Response := ⟨code, err ++ "\n"⟩

/-- `Success(w)`: status 200 and the line `ok`. -/
def Success : Response := ⟨200, "ok\n"⟩

/-- `http.StatusBadRequest`. -/
def StatusBadRequest : Nat := 400

/-- `http.StatusInternalServerError`. -/
def StatusInternalServerError : Nat := 500

/-- The state a handler leaves behind: its response, the gate, the calls of the sink,
and the durations passed to `time.Sleep`. -/
structure Outcome where
  resp : Response
  handler : Handler
  calls : List Row
  slept : List Int

/-- The response `Send` writes for the result of `putLog`. -/
def sendResponse : Option Err → Response
  | none => Success
  | some err =>
    if err.isBadRequest then Error err.Error StatusBadRequest
    else Error "internal server error" StatusInternalServerError

/-- `Handler.Send`, run on its own from the gate state `s`. `req` is the decoded
body (`none` when `Decode` fails). The result is `none` when the request blocks in
`lock` (no free slot in the key's channel). -/
def Send (J : Unmarshal) (db : DB) (now : Int) (ovf : Int) (s : Handler)
    (calls : List Row) (req : Option SoloLog) : Option Outcome :=
  match req with
  | none => some ⟨Error "can't parse body" StatusBadRequest, s, calls, []⟩
  | some req =>
    if req.AppID = "" then some ⟨Error "app_id is required" StatusBadRequest, s, calls, []⟩
    else
      match s.lock req.AppID with
      | none => none
      | some (s1, w) =>
        let r := putLog J db now calls req.toLog req.AppID
        match Handler.unlock ovf s1 req.AppID w with
        | none => none
        | some (s2, wt) => some ⟨sendResponse r.1, s2, r.2, [wt]⟩

/-! ## The specification's table of tags -/

/-- The eight tags of the specification's enumeration. -/
def knownTags : List String :=
  ["signup", "signin", "sell.order", "buy.order", "buy.error", "trade", "sell.close",
    "buy.close"]

/-- A payload decoded against the shape of its tag, one case per row of the
specification's table. -/
inductive Payload where
  | signup (d : LogDataSignup)
  | signin (d : LogDataSignin)
  | sellOrder (d : LogDataOrder)
  | buyOrder (d : LogDataOrder)
  | buyError (d : LogDataBuyError)
  | trade (d : LogDataTrade)
  | sellClose (d : SellClose)
  | buyClose (d : BuyClose)

/-- The specification's "payload deserializes against the tag's shape": `none` for a
tag outside the enumeration, else the decoded payload or the decoder's error. -/
def specDecode (J : Unmarshal) (tag : String) (data : RawMessage) :
    Option (Except String Payload) :=
  if tag = "signup" then
    some (match J.signup data with | .ok d => .ok (.signup d) | .error e => .error e)
  else if tag = "signin" then
    some (match J.signin data with | .ok d => .ok (.signin d) | .error e => .error e)
  else if tag = "sell.order" then
    some (match J.order data with | .ok d => .ok (.sellOrder d) | .error e => .error e)
  else if tag = "buy.order" then
    some (match J.order data with | .ok d => .ok (.buyOrder d) | .error e => .error e)
  else if tag = "buy.error" then
    some (match J.buyError data with | .ok d => .ok (.buyError d) | .error e => .error e)
  else if tag = "trade" then
    some (match J.trade data with | .ok d => .ok (.trade d) | .error e => .error e)
  else if tag = "sell.close" then
    some (match J.sellClose data with | .ok d => .ok (.sellClose d) | .error e => .error e)
  else if tag = "buy.close" then
    some (match J.buyClose data with | .ok d => .ok (.buyClose d) | .error e => .error e)
  else none

/-- The specification's table of required fields: every field required for the tag
is non-zero (a number) or non-empty (a string). -/
def Payload.complete : Payload → Bool
  | .signup d => d.Name != "" && d.BankID != "" && d.UserID != 0
  | .signin d => d.UserID != 0
  | .sellOrder d => d.UserID != 0 && d.OrderID != 0 && d.Amount != 0 && d.Price != 0
  | .buyOrder d => d.UserID != 0 && d.OrderID != 0 && d.Amount != 0 && d.Price != 0
  | .buyError d => d.UserID != 0 && d.Amount != 0 && d.Price != 0 && d.Error != ""
  | .trade d => d.TradeID != 0 && d.Amount != 0 && d.Price != 0
  | .sellClose d =>
    d.TradeID != 0 && d.UserID != 0 && d.SellID != 0 && d.Amount != 0 && d.Price != 0
  | .buyClose d =>
    d.TradeID != 0 && d.UserID != 0 && d.BuyID != 0 && d.Amount != 0 && d.Price != 0

/-- The tag codes as the specification lists them. -/
def Payload.tagCode : Payload → Int
  | .signup _ => 1
  | .signin _ => 2
  | .sellOrder _ => 3
  | .buyOrder _ => 4
  | .buyError _ => 5
  | .trade _ => 6
  | .sellClose _ => 7
  | .buyClose _ => 8

/-- The specification's `user_id` of a record: the payload's, except for `trade`. -/
def Payload.userID : Payload → Int
  | .signup d => d.UserID
  | .signin d => d.UserID
  | .sellOrder d => d.UserID
  | .buyOrder d => d.UserID
  | .buyError d => d.UserID
  | .trade _ => 0
  | .sellClose d => d.UserID
  | .buyClose d => d.UserID

/-- The specification's `trade_id` of a record: the payload's for `trade`,
`sell.close` and `buy.close`, zero for the other tags. -/
def Payload.tradeID : Payload → Int
  | .trade d => d.TradeID
  | .sellClose d => d.TradeID
  | .buyClose d => d.TradeID
  | _ => 0

/-! ## Sample inputs -/

/-- The bytes of an ASCII text. -/
def bytes (t : String) : RawMessage := t.toList.map (fun c => c.toNat.toUInt8)

/-- The payload `\x7b"user_id":"x"\x7d`. -/
def badSigninData : RawMessage := bytes "\x7b\"user_id\":\"x\"\x7d"

/-- The payload `\x7b\x7d`. -/
def emptyObjectData : RawMessage := bytes "\x7b\x7d"

/-- The payload `\x7b"name":"a","bank_id":"b","user_id":1\x7d`. -/
def signupData : RawMessage := bytes "\x7b\"name\":\"a\",\"bank_id\":\"b\",\"user_id\":1\x7d"

/-- The payload `\x7b"trade_id":5,"amount":1,"price":100\x7d`. -/
def tradeData : RawMessage := bytes "\x7b\"trade_id\":5,\"amount\":1,\"price\":100\x7d"

/-- A decoder that gives the results of `json.Unmarshal` on the payloads of the
examples: decoding `badSigninData` into `LogDataSignin` fails (a string for an
`int64`), `emptyObjectData` decodes into the zero `LogDataSignup`, and `signupData`
and `tradeData` decode into their fields. Everywhere else it reports an error; the
examples do not go there. -/
def sampleUnmarshal : Unmarshal where
  signup := fun d =>
    if d = emptyObjectData then .ok ⟨"", "", 0⟩
    else if d = signupData then .ok ⟨"a", "b", 1⟩
    else .error "not a payload of the examples"
  signin := fun d =>
    if d = badSigninData then
      .error "json: cannot unmarshal string into Go struct field LogDataSignin.user_id of type int64"
    else .error "not a payload of the examples"
  order := fun _ => .error "not a payload of the examples"
  buyError := fun _ => .error "not a payload of the examples"
  trade := fun d =>
    if d = tradeData then .ok ⟨5, 1, 100⟩
    else .error "not a payload of the examples"
  sellClose := fun _ => .error "not a payload of the examples"
  buyClose := fun _ => .error "not a payload of the examples"

/-- A sink whose inserts all succeed. -/
def okDB : DB := fun _ _ => none

/-! ## `Handler.SendBulk` -/

/-- The struct `BulkLog`. -/
structure BulkLog where
  AppID : String
  Logs : List Log

/-- The loop `for _, l := range req.Logs` of `SendBulk`, from the record at position
`i` on. `now i` is what `time.Now().Unix()` returns while the record at position `i`
is handled, `errs` the errors appended so far, `calls` the calls of the sink so far.
Every record is handed to `putLog`; an error is appended and the loop goes on. -/
def bulkLoop (J : Unmarshal) (db : DB) (now : Nat → Int) (appID : String) :
    Nat → List Log → List Err → List Row → List Err × List Row
  | _, [], errs, calls => (errs, calls)
  | i, l :: ls, errs, calls =>
    match (putLog J db (now i) calls l appID).1 with
    | none =>
      bulkLoop J db now appID (i + 1) ls errs (putLog J db (now i) calls l appID).2
    | some err =>
      bulkLoop J db now appID (i + 1) ls (errs ++ [err]) (putLog J db (now i) calls l appID).2

/-- The response `SendBulk` writes for the errors collected by its loop. -/
def bulkResponse (errs : List Err) : Response :=
  if errs.length > 0 then Error "internal server error" StatusInternalServerError
  else Success

/-- `Handler.SendBulk`, run on its own from the gate state `s`. `req` is the decoded
body (`none` when `Decode` fails, which includes a body over `MaxBodySize`). The result
is `none` when the request blocks in `lock`. -/
def SendBulk (J : Unmarshal) (db : DB) (now : Nat → Int) (ovf : Int) (s : Handler)
    (calls : List Row) (req : Option BulkLog) : Option Outcome :=
  match req with
  | none => some ⟨Error "can't parse body" StatusBadRequest, s, calls, []⟩
  | some req =>
    if req.AppID = "" then some ⟨Error "app_id is required" StatusBadRequest, s, calls, []⟩
    else
      match s.lock req.AppID with
      | none => none
      | some (s1, w) =>
        let r := bulkLoop J db now req.AppID 0 req.Logs [] calls
        match Handler.unlock ovf s1 req.AppID w with
        | none => none
        | some (s2, wt) => some ⟨bulkResponse r.1, s2, r.2, [wt]⟩

/-! ## The specification's validated record -/

/-- The specification's validation of a record at server time `now`: the row to
write when the payload is non-empty, the time not older than 3600 s, the tag one of
the enumeration, the payload decodes and every required field is present; `none` when
one of these checks fails. -/
def specRow (J : Unmarshal) (now : Int) (appID : String) (l : Log) : Option Row :=
  if l.Data = [] then none
  else if l.Time < now - 3600 then none
  else
    match specDecode J l.Tag l.Data with
    | some (.ok p) =>
      if p.complete then some ⟨appID, p.tagCode, l.Time, p.userID, p.tradeID, l.Data⟩
      else none
    | _ => none

/-- The rows of the records of a batch that pass validation, in input order; the
record at position `i` is judged at the server time `now i`. -/
def specRows (J : Unmarshal) (now : Nat → Int) (appID : String) : Nat → List Log → List Row
  | _, [] => []
  | i, l :: ls => (specRow J (now i) appID l).toList ++ specRows J now appID (i + 1) ls

/-- The words "putLog succeeded for every record of the batch": each record, handed to
`putLog` in the sink state its predecessors left, gives no error. -/
def allSucceed (J : Unmarshal) (db : DB) (now : Nat → Int) (appID : String) :
    Nat → List Row → List Log → Bool
  | _, _, [] => true
  | i, calls, l :: ls =>
    (putLog J db (now i) calls l appID).1.isNone &&
      allSucceed J db now appID (i + 1) (putLog J db (now i) calls l appID).2 ls

/-- A sink whose inserts all fail. -/
def failDB : DB := fun _ _ => some "Error 1040: Too many connections"

/-! ## The admission gate as a transition system -/

/-- Where a request stands in `lock` and in its release function: it has called
`lock`; it has left the block under `s.mux`; it has incremented the counter and
captured `w`; it has sent on the channel and holds a slot (`putLog` and the sleep
happen here); it has decremented the counter and still holds the slot; it has
received from the channel. -/
inductive Phase where
  | called
  | ensured
  | entered (w : Int)
  | holding (w : Int)
  | leaving
  | done
deriving DecidableEq

/-- A request in the gate: its key and its phase. -/
structure Req where
  appid : String
  phase : Phase
deriving DecidableEq

/-- The request has a value of its own in the key's channel. -/
def Phase.holdsSlot : Phase → Bool
  | .holding _ => true
  | .leaving => true
  | _ => false

/-- The request has incremented the counter and not yet decremented it. -/
def Phase.counted : Phase → Bool
  | .entered _ => true
  | .holding _ => true
  | _ => false

/-- The gate with its requests: the maps of the `Handler` and every request that has
called `lock` so far. -/
structure Gate where
  handler : Handler
  reqs : List Req

/-- The gate of a fresh server: empty maps, no request. -/
def Gate.init : Gate := ⟨Handler.empty, []⟩

/-- The atomic steps of requests: a new request calls `lock(appid)`; request `i` runs
the block under `s.mux`; does `atomic.AddInt64(.., 1)`; sends on the channel; does
`atomic.AddInt64(.., -1)` in its release function; receives from the channel. -/
inductive Action where
  | call (appid : String)
  | ensure (i : Nat)
  | add (i : Nat)
  | send (i : Nat)
  | dec (i : Nat)
  | recv (i : Nat)
deriving DecidableEq

/-- One step of the gate; `none` when the step is not enabled (the request is not at
that point of the code, or the channel operation blocks). -/
def Gate.step (g : Gate) : Action → Option Gate
  | .call k => some ⟨g.handler, g.reqs ++ [⟨k, .called⟩]⟩
  | .ensure i =>
    match g.reqs[i]? with
    | some ⟨k, .called⟩ => some ⟨g.handler.ensure k, g.reqs.set i ⟨k, .ensured⟩⟩
    | _ => none
  | .add i =>
    match g.reqs[i]? with
    | some ⟨k, .ensured⟩ =>
      some ⟨(g.handler.addWaiting k 1).1,
        g.reqs.set i ⟨k, .entered (g.handler.addWaiting k 1).2⟩⟩
    | _ => none
  | .send i =>
    match g.reqs[i]? with
    | some ⟨k, .entered w⟩ =>
      match g.handler.send k with
      | some h => some ⟨h, g.reqs.set i ⟨k, .holding w⟩⟩
      | none => none
    | _ => none
  | .dec i =>
    match g.reqs[i]? with
    | some ⟨k, .holding _⟩ =>
      some ⟨(g.handler.addWaiting k (-1)).1, g.reqs.set i ⟨k, .leaving⟩⟩
    | _ => none
  | .recv i =>
    match g.reqs[i]? with
    | some ⟨k, .leaving⟩ =>
      match g.handler.recv k with
      | some h => some ⟨h, g.reqs.set i ⟨k, .done⟩⟩
      | none => none
    | _ => none

/-- A sequence of steps; `none` when one of them is not enabled. -/
def Gate.run (g : Gate) : List Action → Option Gate
  | [] => some g
  | a :: as =>
    match g.step a with
    | some g2 => g2.run as
    | none => none

/-- The states of the gate reached from the fresh server by some interleaving. -/
def Reachable (g : Gate) : Prop := ∃ as, Gate.init.run as = some g

/-- The number of requests that hold a slot of the key. -/
def Gate.holders (g : Gate) (k : String) : Nat :=
  g.reqs.countP (fun r => decide (r.appid = k) && r.phase.holdsSlot)

/-- The number of requests that have incremented the key's counter and not yet
decremented it. -/
def Gate.waiters (g : Gate) (k : String) : Nat :=
  g.reqs.countP (fun r => decide (r.appid = k) && r.phase.counted)

/-- The two maps of the `Handler`. -/
inductive MapName where
  | guard
  | waiting
deriving DecidableEq

/-- An access of one of the maps by a step: a read or a write of the map, made with
`s.mux` held or not. -/
structure Access where
  map : MapName
  write : Bool
  underMux : Bool
deriving DecidableEq

/-- The map accesses of a step, as the source makes them. The block under `s.mux`
reads both maps and writes the ones that lack the key; `s.waiting[appid]` (for the two
`atomic.AddInt64`) and `s.guard[appid]` (for the send and the receive) are read
outside the block, without the mutex. -/
def Gate.accesses (g : Gate) : Action → List Access
  | .call _ => []
  | .ensure i =>
    match g.reqs[i]? with
    | some r =>
      [⟨.guard, false, true⟩] ++
        (if (g.handler.guard r.appid).isNone then [⟨.guard, true, true⟩] else []) ++
        [⟨.waiting, false, true⟩] ++
        (if (g.handler.waiting r.appid).isNone then [⟨.waiting, true, true⟩] else [])
    | none => []
  | .add _ => [⟨.waiting, false, false⟩]
  | .send _ => [⟨.guard, false, false⟩]
  | .dec _ => [⟨.waiting, false, false⟩]
  | .recv _ => [⟨.guard, false, false⟩]

/-- The request that takes a step (`none` for the arrival of a new request). -/
def Action.actor : Action → Option Nat
  | .call _ => none
  | .ensure i => some i
  | .add i => some i
  | .send i => some i
  | .dec i => some i
  | .recv i => some i

/-- Two accesses conflict: the same map, one of them a write, and not both made with
`s.mux` held. -/
def Access.conflicts (x y : Access) : Bool :=
  decide (x.map = y.map) && (x.write || y.write) && !(x.underMux && y.underMux)

/-- A data race in state `g`: two steps of different requests are both enabled
(nothing orders one before the other) and make conflicting accesses. -/
def Gate.race (g : Gate) (a b : Action) : Bool :=
  (g.step a).isSome && (g.step b).isSome && decide (a.actor ≠ b.actor) &&
    (g.accesses a).any (fun x => (g.accesses b).any (fun y => x.conflicts y))

/-- An interleaving of three requests for the key `app1`: all three call `lock` and
increment the counter, the first two take the two slots. -/
def threeRequests : List Action :=
  [.call "app1", .call "app1", .call "app1", .ensure 0, .ensure 1, .add 0, .ensure 2,
    .add 1, .send 1, .add 2, .send 0]

/-- An interleaving of two requests for different keys: both have called `lock`, the
first has left the block under `s.mux`, the second has not entered it yet. -/
def twoKeys : List Action := [.call "a", .call "b", .ensure 0]

/-! ## Facts about the release delay -/

theorem wrapInt64_of_range (x : Int) (h1 : -(2 ^ 63) ≤ x) (h2 : x < 2 ^ 63) :
    wrapInt64 x = x := by
  unfold wrapInt64
  have h : (x + 2 ^ 63) % 2 ^ 64 = x + 2 ^ 63 := Int.emod_eq_of_lt (by omega) (by omega)
  omega

theorem real_pow_half_mul_two (n : Nat) :
    (2 : ℝ) ^ ((n : ℝ) / 2) * 2 = Real.sqrt (((2 ^ (n + 2) : Nat) : ℝ)) := by
  have h2 : (0 : ℝ) ≤ 2 := by norm_num
  rw [Real.sqrt_eq_rpow]
  push_cast
  rw [← Real.rpow_natCast 2 (n + 2), ← Real.rpow_mul h2]
  have e : ((n + 2 : Nat) : ℝ) * (1 / 2) = (n : ℝ) / 2 + 1 := by push_cast; ring
  rw [e, Real.rpow_add (by norm_num : (0 : ℝ) < 2), Real.rpow_one]

/-- The computable `powFloor` is the floor of the real number `2^(w/2) * 2`. -/
theorem powFloor_eq_floor (w : Int) (hw : 0 ≤ w) :
    (powFloor w : Int) = ⌊(2 : ℝ) ^ ((w : ℝ) / 2) * 2⌋ := by
  obtain ⟨n, rfl⟩ := Int.eq_ofNat_of_zero_le hw
  have h := real_pow_half_mul_two n
  simp only [Int.cast_natCast]
  rw [h, Real.floor_real_sqrt_eq_nat_sqrt]
  simp [powFloor]

theorem powFloor_natCast (n : Nat) : powFloor (n : Int) = Nat.sqrt (2 ^ (n + 2)) := by
  simp [powFloor]

theorem powFloor_mono (w1 w2 : Int) (h0 : 0 ≤ w1) (h : w1 ≤ w2) :
    powFloor w1 ≤ powFloor w2 := by
  have h2 : 0 ≤ w2 := le_trans h0 h
  simp only [powFloor, h0, h2, if_true]
  apply Nat.sqrt_le_sqrt
  apply Nat.pow_le_pow_right (by norm_num)
  omega

theorem powFloor_small (w : Int) (h0 : 0 ≤ w) (h : w ≤ 123) :
    (powFloor w : Int) + MinAppTime < 2 ^ 63 := by
  have hm := powFloor_mono w 123 h0 h
  have h123 : powFloor 123 < 2 ^ 63 - 20000000 := by
    have e := powFloor_natCast 123
    simp only [Nat.cast_ofNat] at e
    rw [e, Nat.sqrt_lt']
    norm_num
  have : MinAppTime = 20000000 := by norm_num [MinAppTime, Millisecond]
  omega

/-- In the range where `int64(...)` is defined by the language the delay is the
clamped sum, with the power taken in nanoseconds. -/
theorem releaseDelay_eq (ovf w : Int) (h0 : 0 ≤ w) (h : w ≤ 123) :
    releaseDelay ovf w = min MaxAppTime ((powFloor w : Int) + MinAppTime) := by
  have hs := powFloor_small w h0 h
  have hM : MinAppTime = 20000000 := by norm_num [MinAppTime, Millisecond]
  have hX : MaxAppTime = 1000000000 := by norm_num [MaxAppTime, Second, Millisecond]
  have hlt : powFloor w < 2 ^ 63 := by omega
  have hp : (0 : Int) ≤ (powFloor w : Int) := Int.natCast_nonneg _
  simp only [releaseDelay, int64OfFloat, hlt, if_true]
  rw [wrapInt64_of_range _ (by omega) hs]
  rw [hM, hX]
  split <;> omega

theorem powFloor_two : powFloor 2 = 4 := by
  have e := powFloor_natCast 2
  simp only [Nat.cast_ofNat] at e
  rw [e]
  exact (Nat.eq_sqrt.2 (by norm_num)).symm

theorem powFloor_ten : powFloor 10 = 64 := by
  have e := powFloor_natCast 10
  simp only [Nat.cast_ofNat] at e
  rw [e]
  exact (Nat.eq_sqrt.2 (by norm_num)).symm

theorem powFloor_124 : powFloor 124 = 2 ^ 63 := by
  have e := powFloor_natCast 124
  simp only [Nat.cast_ofNat] at e
  rw [e]
  exact (Nat.eq_sqrt.2 (by norm_num)).symm

theorem minAppTime_val : MinAppTime = 20000000 := by
  norm_num [MinAppTime, Millisecond]

theorem maxAppTime_val : MaxAppTime = 1000000000 := by
  norm_num [MaxAppTime, Second, Millisecond]

theorem releaseDelay_two (ovf : Int) : releaseDelay ovf 2 = 20000004 := by
  rw [releaseDelay_eq ovf 2 (by norm_num) (by norm_num), powFloor_two, minAppTime_val,
    maxAppTime_val]
  norm_num

theorem releaseDelay_ten (ovf : Int) : releaseDelay ovf 10 = 20000064 := by
  rw [releaseDelay_eq ovf 10 (by norm_num) (by norm_num), powFloor_ten, minAppTime_val,
    maxAppTime_val]
  norm_num

theorem releaseDelay_123 (ovf : Int) : releaseDelay ovf 123 = MaxAppTime := by
  rw [releaseDelay_eq ovf 123 (by norm_num) (by norm_num)]
  have e := powFloor_natCast 123
  simp only [Nat.cast_ofNat] at e
  have h : 2 ^ 31 ≤ powFloor 123 := by
    rw [e, Nat.le_sqrt']
    norm_num
  have hM := minAppTime_val
  have hX := maxAppTime_val
  have h2 : ((2 ^ 31 : Nat) : Int) ≤ (powFloor 123 : Int) := Int.ofNat_le.2 h
  norm_num at h2
  rw [min_eq_left]
  omega

theorem releaseDelay_124_amd64 : releaseDelay (-(2 ^ 63)) 124 = -(2 ^ 63) + 20000000 := by
  simp only [releaseDelay, int64OfFloat, powFloor_124, minAppTime_val, maxAppTime_val]
  norm_num [wrapInt64]

theorem releaseDelay_124_saturating :
    releaseDelay (2 ^ 63 - 1) 124 = -(2 ^ 63) + 19999999 := by
  simp only [releaseDelay, int64OfFloat, powFloor_124, minAppTime_val, maxAppTime_val]
  norm_num [wrapInt64]

/-- Between 0 and 123 the delay lies between `MinAppTime` and `MaxAppTime`. -/
theorem releaseDelay_bounds_in_range (ovf w : Int) (h0 : 0 ≤ w) (h : w ≤ 123) :
    MinAppTime ≤ releaseDelay ovf w ∧ releaseDelay ovf w ≤ MaxAppTime := by
  rw [releaseDelay_eq ovf w h0 h]
  have hp : (0 : Int) ≤ (powFloor w : Int) := Int.natCast_nonneg _
  have hM := minAppTime_val
  have hX := maxAppTime_val
  constructor
  · apply le_min <;> omega
  · exact min_le_left _ _

/-- Between 0 and 123 the delay does not decrease with `w`. -/
theorem releaseDelay_mono_in_range (ovf w1 w2 : Int) (h0 : 0 ≤ w1) (h12 : w1 ≤ w2)
    (h : w2 ≤ 123) : releaseDelay ovf w1 ≤ releaseDelay ovf w2 := by
  rw [releaseDelay_eq ovf w1 h0 (le_trans h12 h), releaseDelay_eq ovf w2 (le_trans h0 h12) h]
  have hm : (powFloor w1 : Int) ≤ (powFloor w2 : Int) :=
    Int.ofNat_le.2 (powFloor_mono w1 w2 h0 h12)
  exact min_le_min le_rfl (by omega)

/-! ## The claims about the release delay -/

/-- C1 (as stated, refuted): at `w = 2` the release function sleeps 20 000 004 ns,
which is 20 ms plus 4 nanoseconds, and not the 24 ms of the formula that counts
`floor(2^(w/2) * 2)` in milliseconds. -/
theorem C1_delay_is_not_in_milliseconds :
    releaseDelay (-(2 ^ 63)) 2 = 20000004 ∧
    min MaxAppTime (⌊(2 : ℝ) ^ (((2 : Int) : ℝ) / 2) * 2⌋ * Millisecond + MinAppTime)
      = 24000000 ∧
    releaseDelay (-(2 ^ 63)) 2 ≠
      min MaxAppTime (⌊(2 : ℝ) ^ (((2 : Int) : ℝ) / 2) * 2⌋ * Millisecond + MinAppTime) := by
  have hf : ⌊(2 : ℝ) ^ (((2 : Int) : ℝ) / 2) * 2⌋ = 4 := by
    rw [← powFloor_eq_floor 2 (by norm_num), powFloor_two]
    rfl
  rw [hf, releaseDelay_two, minAppTime_val, maxAppTime_val]
  norm_num [Millisecond]

/-- C1 (amended): for a captured `w` from 0 to 123 the duration the release function
passes to `time.Sleep` is `min(MaxAppTime, floor(2^(w/2) * 2) + MinAppTime)` with the
power counted in NANOSECONDS (`w/2` a real division), whatever the platform's
out-of-range conversion; it is positive, so it is the time slept. -/
theorem C1_release_delay_formula (ovf w : Int) (h0 : 0 ≤ w) (h : w ≤ 123) :
    releaseDelay ovf w = min MaxAppTime (⌊(2 : ℝ) ^ ((w : ℝ) / 2) * 2⌋ + MinAppTime) ∧
    sleepTime (releaseDelay ovf w) = releaseDelay ovf w := by
  have hb := releaseDelay_bounds_in_range ovf w h0 h
  have hM := minAppTime_val
  refine ⟨?_, ?_⟩
  · rw [releaseDelay_eq ovf w h0 h, powFloor_eq_floor w h0]
  · unfold sleepTime
    rw [if_neg (by omega)]

/-- C1 (amended), at `w = 10`: the formula applies, and gives 20 000 064 ns. -/
theorem C1_release_delay_formula_witness :
    ((0 : Int) ≤ 10 ∧ (10 : Int) ≤ 123) ∧
    (releaseDelay (-(2 ^ 63)) 10
        = min MaxAppTime (⌊(2 : ℝ) ^ (((10 : Int) : ℝ) / 2) * 2⌋ + MinAppTime) ∧
      sleepTime (releaseDelay (-(2 ^ 63)) 10) = releaseDelay (-(2 ^ 63)) 10) ∧
    releaseDelay (-(2 ^ 63)) 10 = 20000064 :=
  ⟨⟨by decide, by decide⟩,
    C1_release_delay_formula (-(2 ^ 63)) 10 (by decide) (by decide),
    releaseDelay_ten _⟩

/-- C2 (evaluation at the failing input): with 124 requests in the gate the float
`2^63` does not fit an `int64`; on amd64 (conversion result `-2^63`) and on a
saturating platform (`2^63 - 1`, which wraps when `MinAppTime` is added) the duration
is negative, below `MinAppTime`, and `time.Sleep` does not wait at all. -/
theorem C2_delay_below_min_at_124 :
    releaseDelay (-(2 ^ 63)) 124 = -(2 ^ 63) + 20000000 ∧
    releaseDelay (2 ^ 63 - 1) 124 = -(2 ^ 63) + 19999999 ∧
    releaseDelay (-(2 ^ 63)) 124 < MinAppTime ∧
    releaseDelay (2 ^ 63 - 1) 124 < MinAppTime ∧
    sleepTime (releaseDelay (-(2 ^ 63)) 124) = 0 ∧
    sleepTime (releaseDelay (2 ^ 63 - 1) 124) = 0 := by
  rw [releaseDelay_124_amd64, releaseDelay_124_saturating, minAppTime_val]
  norm_num [sleepTime]

/-- C3 (evaluation at the failing input): the delay for `w = 123` is `MaxAppTime`,
and the delay for `w = 124` is smaller (negative), on amd64 and on a saturating
platform alike. -/
theorem C3_delay_decreases_at_124 :
    releaseDelay (-(2 ^ 63)) 123 = MaxAppTime ∧
    releaseDelay (2 ^ 63 - 1) 123 = MaxAppTime ∧
    releaseDelay (-(2 ^ 63)) 124 < releaseDelay (-(2 ^ 63)) 123 ∧
    releaseDelay (2 ^ 63 - 1) 124 < releaseDelay (2 ^ 63 - 1) 123 := by
  rw [releaseDelay_123, releaseDelay_123, releaseDelay_124_amd64,
    releaseDelay_124_saturating, maxAppTime_val]
  norm_num

/-! ## The claims about `Handler.lock` -/

theorem count_enter (s : Handler) (appid : String) :
    (s.enter appid).1.count appid = s.count appid + 1 ∧
    (s.enter appid).2 = s.count appid + 1 := by
  have h : (s.ensure appid).count appid = s.count appid := by
    simp only [Handler.count, Handler.ensure, if_true]
    cases s.waiting appid <;> rfl
  simp only [Handler.enter, Handler.addWaiting, h]
  simp [Handler.count]

theorem slots_enter (s : Handler) (appid : String) :
    (s.enter appid).1.guard appid = some (s.slots appid) := by
  simp only [Handler.enter, Handler.addWaiting, Handler.ensure, Handler.slots, if_true]
  cases s.guard appid <;> rfl

/-- With a free slot `lock` returns: the channel holds one value more, the counter is
one higher, and the captured `w` is the counter's new value. -/
theorem lock_of_free_slot (s : Handler) (appid : String) (h : s.slots appid < WorkerPerApp) :
    ∃ s2, s.lock appid = some (s2, s.count appid + 1) ∧
      s2.count appid = s.count appid + 1 ∧ s2.slots appid = s.slots appid + 1 := by
  have hc := count_enter s appid
  have hg := slots_enter s appid
  simp only [Handler.lock, Handler.send, hg, h, if_true, hc.2]
  refine ⟨_, rfl, ?_, ?_⟩
  · simpa [Handler.count] using hc.1
  · simp [Handler.slots]

/-- With a value of its own in the channel the release function returns: it has
slept `releaseDelay ovf w`, the counter is one lower and the slot is free again. -/
theorem unlock_of_held (ovf : Int) (s : Handler) (appid : String) (w : Int) (n : Nat)
    (h : s.slots appid = n + 1) :
    ∃ s2, Handler.unlock ovf s appid w = some (s2, releaseDelay ovf w) ∧
      s2.count appid = s.count appid - 1 ∧ s2.slots appid = n := by
  have hg : s.guard appid = some (n + 1) := by
    simp only [Handler.slots] at h
    cases hg2 : s.guard appid with
    | none => rw [hg2] at h; simp at h
    | some m =>
      rw [hg2] at h
      simp only [Option.getD_some] at h
      rw [h]
  simp only [Handler.unlock, Handler.recv, Handler.addWaiting, hg]
  refine ⟨_, rfl, ?_, ?_⟩
  · simp only [Handler.count, if_true, Option.getD_some]
    omega
  · simp [Handler.slots]

/-- C4 (as stated, refuted): the first request for a key finds the counter at 0, and
the `w` its release function uses is 1, not the value before the increment. -/
theorem C4_first_request_captures_one :
    Handler.empty.count "app1" = 0 ∧
    (Handler.empty.lock "app1").map Prod.snd = some 1 ∧
    (Handler.empty.lock "app1").map Prod.snd ≠ some (Handler.empty.count "app1") := by
  decide

/-- C4 (amended): `lock(key)` increments the key's counter by exactly 1 on entry, and
the value `w` its release function later uses (the delay it sleeps is
`releaseDelay ovf w`) is the counter's value AFTER that increment; when a slot is free
`lock` returns with that `w`, and a request that finds no other request in the gate
(counter 0) has `w = 1`. -/
theorem C4_lock_captures_incremented_count (s : Handler) (appid : String)
    (h : s.slots appid < WorkerPerApp) :
    (s.enter appid).1.count appid = s.count appid + 1 ∧
    (s.enter appid).2 = s.count appid + 1 ∧
    (∃ s2, s.lock appid = some (s2, s.count appid + 1) ∧
      s2.count appid = s.count appid + 1 ∧
      ∀ ovf, (Handler.unlock ovf s2 appid (s.count appid + 1)).map Prod.snd
        = some (releaseDelay ovf (s.count appid + 1))) ∧
    (s.count appid = 0 → (s.lock appid).map Prod.snd = some 1) := by
  have hc := count_enter s appid
  obtain ⟨s2, hl, hcnt, hsl⟩ := lock_of_free_slot s appid h
  refine ⟨hc.1, hc.2, ⟨s2, hl, hcnt, ?_⟩, ?_⟩
  · intro ovf
    have hg : ∃ n, s2.guard appid = some (n + 1) := by
      simp only [Handler.slots] at hsl
      cases hg2 : s2.guard appid with
      | none => rw [hg2] at hsl; simp at hsl
      | some n =>
        rw [hg2] at hsl
        simp only [Option.getD_some] at hsl
        exact ⟨(s.guard appid).getD 0, by rw [hsl]⟩
    obtain ⟨n, hn⟩ := hg
    simp only [Handler.unlock, Handler.recv, Handler.addWaiting, hn]
    rfl
  · intro h0
    rw [hl, h0]
    rfl

/-- C4 (amended), for the first request of the key `app1` on a fresh handler. -/
theorem C4_lock_captures_incremented_count_witness :
    Handler.empty.slots "app1" < WorkerPerApp ∧
    (Handler.empty.lock "app1").map Prod.snd = some 1 :=
  ⟨by decide,
    (C4_lock_captures_incremented_count Handler.empty "app1" (by decide)).2.2.2 (by decide)⟩

/-! ## The claims about `putLog` -/

/-- C5: a record with a non-empty payload, a time not older than 3600 s, one of the
eight tags and a payload that decodes with every required field present, handed to a
sink that accepts it, makes `putLog` return `nil` after exactly one call of the sink,
with the application key, the tag code (signup 1, signin 2, sell.order 3, buy.order 4,
buy.error 5, trade 6, sell.close 7, buy.close 8), the record's time, the payload's
`user_id` (0 for trade), its `trade_id` (0 unless trade, sell.close, buy.close) and
the payload bytes unchanged. -/
theorem C5_valid_record_is_written_once (J : Unmarshal) (db : DB) (now : Int)
    (calls : List Row) (l : Log) (appID : String) (p : Payload)
    (hdata : l.Data ≠ []) (htime : now - 3600 ≤ l.Time)
    (hdec : specDecode J l.Tag l.Data = some (.ok p)) (hreq : p.complete = true)
    (hdb : db calls ⟨appID, p.tagCode, l.Time, p.userID, p.tradeID, l.Data⟩ = none) :
    putLog J db now calls l appID
      = (none, calls ++ [⟨appID, p.tagCode, l.Time, p.userID, p.tradeID, l.Data⟩]) := by
  have hlen : ¬ l.Data.length = 0 := by
    intro h
    exact hdata (List.length_eq_zero.1 h)
  have hnot : ¬ l.Time < now - 3600 := by omega
  unfold specDecode at hdec
  split_ifs at hdec with h1 h2 h3 h4 h5 h6 h7 h8
  all_goals
    split at hdec
    · simp only [Option.some.injEq, Except.ok.injEq] at hdec
      subst hdec
      simp only [Payload.complete, Bool.and_eq_true, bne_iff_ne, ne_eq] at hreq
      simp only [Payload.tagCode, Payload.userID, Payload.tradeID] at hdb
      simp [putLog, putLogSwitch, caseSignup, caseSignin, caseSellOrder, caseBuyOrder,
        caseBuyError, caseTrade, caseSellClose, caseBuyClose, hlen, hnot, *,
        Payload.tagCode, Payload.userID, Payload.tradeID, TagSignup, TagSignin,
        TagSellOrder, TagBuyOrder, TagBuyError, TagClose, TagSellClose, TagBuyClose]
    · simp at hdec

/-- C5, on the specification's scenario: the record `trade` with
`\x7b"trade_id":5,"amount":1,"price":100\x7d` at the current time is written as one
row with tag code 6, `user_id` 0 and `trade_id` 5. -/
theorem C5_valid_record_is_written_once_witness :
    putLog sampleUnmarshal okDB 1000 [] ⟨"trade", 1000, tradeData⟩ "app1"
      = (none, [⟨"app1", 6, 1000, 0, 5, tradeData⟩]) :=
  C5_valid_record_is_written_once sampleUnmarshal okDB 1000 [] ⟨"trade", 1000, tradeData⟩
    "app1" (.trade ⟨5, 1, 100⟩) (by decide) (by decide) rfl rfl rfl

/-! ## The claims about `Send` -/

/-- With a non-empty key and a free slot `Send` returns: its response is the one for
the result of `putLog`, the sink saw the calls of `putLog`, the release function slept
once, and the key's slot count and counter are back at their values. -/
theorem Send_of_free_slot (J : Unmarshal) (db : DB) (now ovf : Int) (s : Handler)
    (calls : List Row) (l : Log) (appID : String) (hkey : appID ≠ "")
    (hfree : s.slots appID < WorkerPerApp) :
    ∃ out, Send J db now ovf s calls (some ⟨l, appID⟩) = some out ∧
      out.resp = sendResponse (putLog J db now calls l appID).1 ∧
      out.calls = (putLog J db now calls l appID).2 ∧
      out.slept = [releaseDelay ovf (s.count appID + 1)] ∧
      out.handler.slots appID = s.slots appID ∧
      out.handler.count appID = s.count appID := by
  obtain ⟨s1, hl, hc1, hs1⟩ := lock_of_free_slot s appID hfree
  obtain ⟨s2, hu, hc2, hs2⟩ :=
    unlock_of_held ovf s1 appID (s.count appID + 1) (s.slots appID) hs1
  simp only [Send, hkey, if_false, hl, hu]
  refine ⟨_, rfl, rfl, rfl, rfl, hs2, ?_⟩
  simp only [hc2, hc1]
  omega

/-- When the two first checks pass and the payload of a recognised tag fails to
decode, `putLog` returns the decoder's error wrapped, and the sink is not called. -/
theorem putLog_decode_error (J : Unmarshal) (db : DB) (now : Int) (calls : List Row)
    (l : Log) (appID : String) (e : String) (hdata : l.Data ≠ [])
    (htime : now - 3600 ≤ l.Time) (hdec : specDecode J l.Tag l.Data = some (.error e)) :
    ∃ msg, putLog J db now calls l appID = (some (.wrap e msg), calls) := by
  have hlen : ¬ l.Data.length = 0 := by
    intro h
    exact hdata (List.length_eq_zero.1 h)
  have hnot : ¬ l.Time < now - 3600 := by omega
  unfold specDecode at hdec
  split_ifs at hdec with h1 h2 h3 h4 h5 h6 h7 h8
  all_goals
    split at hdec
    · simp at hdec
    · simp only [Option.some.injEq, Except.error.injEq] at hdec
      subst hdec
      simp [putLog, putLogSwitch, caseSignup, caseSignin, caseSellOrder, caseBuyOrder,
        caseBuyError, caseTrade, caseSellClose, caseBuyClose, hlen, hnot, *]

/-- C6 (as stated, refuted): the record `signin` with `\x7b"user_id":"x"\x7d`, non-stale,
fails to decode; the error of `putLog` is not a `badRequestErr`, and `Send` answers
500 `internal server error`, not 400. -/
theorem C6_decode_failure_answers_500 :
    (putLog sampleUnmarshal okDB 1000 [] ⟨"signin", 1000, badSigninData⟩ "app1").1.map
        Err.isBadRequest = some false ∧
    (Send sampleUnmarshal okDB 1000 (-(2 ^ 63)) Handler.empty []
        (some ⟨⟨"signin", 1000, badSigninData⟩, "app1"⟩)).map Outcome.resp
      = some ⟨500, "internal server error\n"⟩ := by
  decide

/-- C6 (amended): for a record with a non-empty payload, a non-stale time and a
recognised tag whose payload fails to decode, `putLog` returns the decoder's error
wrapped by `errors.Wrap` (not a `badRequestErr`) without calling the sink, so `Send`
(non-empty key, free slot) answers with the server-fault status 500 and the body
`internal server error`. -/
theorem C6_decode_failure_is_server_fault (J : Unmarshal) (db : DB) (now ovf : Int)
    (s : Handler) (calls : List Row) (l : Log) (appID : String) (e : String)
    (hdata : l.Data ≠ []) (htime : now - 3600 ≤ l.Time)
    (hdec : specDecode J l.Tag l.Data = some (.error e))
    (hkey : appID ≠ "") (hfree : s.slots appID < WorkerPerApp) :
    (∃ msg, putLog J db now calls l appID = (some (.wrap e msg), calls)) ∧
    ∃ out, Send J db now ovf s calls (some ⟨l, appID⟩) = some out ∧
      out.resp = Error "internal server error" StatusInternalServerError ∧
      out.calls = calls := by
  have hp := putLog_decode_error J db now calls l appID e hdata htime hdec
  refine ⟨hp, ?_⟩
  obtain ⟨msg, hmsg⟩ := hp
  obtain ⟨out, ho, hr, hc, -⟩ := Send_of_free_slot J db now ovf s calls l appID hkey hfree
  refine ⟨out, ho, ?_, ?_⟩
  · rw [hr, hmsg]
    rfl
  · rw [hc, hmsg]

/-- C6 (amended), on the record `signin` with `\x7b"user_id":"x"\x7d`. -/
theorem C6_decode_failure_is_server_fault_witness :
    ∃ out, Send sampleUnmarshal okDB 1000 (-(2 ^ 63)) Handler.empty []
        (some ⟨⟨"signin", 1000, badSigninData⟩, "app1"⟩) = some out ∧
      out.resp = Error "internal server error" StatusInternalServerError ∧
      out.calls = [] :=
  (C6_decode_failure_is_server_fault sampleUnmarshal okDB 1000 (-(2 ^ 63)) Handler.empty []
    ⟨"signin", 1000, badSigninData⟩ "app1"
    "json: cannot unmarshal string into Go struct field LogDataSignin.user_id of type int64"
    (by decide) (by decide) rfl (by decide) (by decide)).2

/-- Two texts that end differently are different: the last two characters decide. -/
theorem append_suffix_ne (a b s t : String) (hs : 2 ≤ s.data.length)
    (ht : 2 ≤ t.data.length) (h : s.data.reverse.take 2 ≠ t.data.reverse.take 2) :
    a ++ s ≠ b ++ t := by
  intro e
  have e1 : (a ++ s).data = (b ++ t).data := congrArg String.data e
  rw [String.data_append, String.data_append] at e1
  have e2 := congrArg (fun l => l.reverse.take 2) e1
  simp only [List.reverse_append] at e2
  rw [List.take_append_of_le_length (by simpa using hs),
    List.take_append_of_le_length (by simpa using ht)] at e2
  exact h e2

/-- An error of the case `"signup"` is a wrapped decoding error or a `badRequestErr`
whose text ends in `is required`. -/
theorem caseSignup_error (J : Unmarshal) (l : Log) (e : Err) (h : caseSignup J l = .error e) :
    (∃ x m, e = .wrap x m) ∨ ∃ r, e = BadRequestErrorf l.Tag r ∧
      r.data.reverse.take 2 = ['d', 'e'] := by
  unfold caseSignup at h
  split at h
  · simp only [Except.error.injEq] at h
    exact Or.inl ⟨_, _, h.symm⟩
  · split_ifs at h
    all_goals
      simp only [Except.error.injEq] at h
      exact Or.inr ⟨_, h.symm, by decide⟩

/-- An error of the case `"signin"` is a wrapped decoding error or a `badRequestErr`
whose text ends in `is required`. -/
theorem caseSignin_error (J : Unmarshal) (l : Log) (e : Err) (h : caseSignin J l = .error e) :
    (∃ x m, e = .wrap x m) ∨ ∃ r, e = BadRequestErrorf l.Tag r ∧
      r.data.reverse.take 2 = ['d', 'e'] := by
  unfold caseSignin at h
  split at h
  · simp only [Except.error.injEq] at h
    exact Or.inl ⟨_, _, h.symm⟩
  · split_ifs at h
    all_goals
      simp only [Except.error.injEq] at h
      exact Or.inr ⟨_, h.symm, by decide⟩

/-- An error of the case `"sell.order"` is a wrapped decoding error or a `badRequestErr`
whose text ends in `is required`. -/
theorem caseSellOrder_error (J : Unmarshal) (l : Log) (e : Err) (h : caseSellOrder J l = .error e) :
    (∃ x m, e = .wrap x m) ∨ ∃ r, e = BadRequestErrorf l.Tag r ∧
      r.data.reverse.take 2 = ['d', 'e'] := by
  unfold caseSellOrder at h
  split at h
  · simp only [Except.error.injEq] at h
    exact Or.inl ⟨_, _, h.symm⟩
  · split_ifs at h
    all_goals
      simp only [Except.error.injEq] at h
      exact Or.inr ⟨_, h.symm, by decide⟩

/-- An error of the case `"buy.order"` is a wrapped decoding error or a `badRequestErr`
whose text ends in `is required`. -/
theorem caseBuyOrder_error (J : Unmarshal) (l : Log) (e : Err) (h : caseBuyOrder J l = .error e) :
    (∃ x m, e = .wrap x m) ∨ ∃ r, e = BadRequestErrorf l.Tag r ∧
      r.data.reverse.take 2 = ['d', 'e'] := by
  unfold caseBuyOrder at h
  split at h
  · simp only [Except.error.injEq] at h
    exact Or.inl ⟨_, _, h.symm⟩
  · split_ifs at h
    all_goals
      simp only [Except.error.injEq] at h
      exact Or.inr ⟨_, h.symm, by decide⟩

/-- An error of the case `"buy.error"` is a wrapped decoding error or a `badRequestErr`
whose text ends in `is required`. -/
theorem caseBuyError_error (J : Unmarshal) (l : Log) (e : Err) (h : caseBuyError J l = .error e) :
    (∃ x m, e = .wrap x m) ∨ ∃ r, e = BadRequestErrorf l.Tag r ∧
      r.data.reverse.take 2 = ['d', 'e'] := by
  unfold caseBuyError at h
  split at h
  · simp only [Except.error.injEq] at h
    exact Or.inl ⟨_, _, h.symm⟩
  · split_ifs at h
    all_goals
      simp only [Except.error.injEq] at h
      exact Or.inr ⟨_, h.symm, by decide⟩

/-- An error of the case `"trade"` is a wrapped decoding error or a `badRequestErr`
whose text ends in `is required`. -/
theorem caseTrade_error (J : Unmarshal) (l : Log) (e : Err) (h : caseTrade J l = .error e) :
    (∃ x m, e = .wrap x m) ∨ ∃ r, e = BadRequestErrorf l.Tag r ∧
      r.data.reverse.take 2 = ['d', 'e'] := by
  unfold caseTrade at h
  split at h
  · simp only [Except.error.injEq] at h
    exact Or.inl ⟨_, _, h.symm⟩
  · split_ifs at h
    all_goals
      simp only [Except.error.injEq] at h
      exact Or.inr ⟨_, h.symm, by decide⟩

/-- An error of the case `"sell.close"` is a wrapped decoding error or a `badRequestErr`
whose text ends in `is required`. -/
theorem caseSellClose_error (J : Unmarshal) (l : Log) (e : Err) (h : caseSellClose J l = .error e) :
    (∃ x m, e = .wrap x m) ∨ ∃ r, e = BadRequestErrorf l.Tag r ∧
      r.data.reverse.take 2 = ['d', 'e'] := by
  unfold caseSellClose at h
  split at h
  · simp only [Except.error.injEq] at h
    exact Or.inl ⟨_, _, h.symm⟩
  · split_ifs at h
    all_goals
      simp only [Except.error.injEq] at h
      exact Or.inr ⟨_, h.symm, by decide⟩

/-- An error of the case `"buy.close"` is a wrapped decoding error or a `badRequestErr`
whose text ends in `is required`. -/
theorem caseBuyClose_error (J : Unmarshal) (l : Log) (e : Err) (h : caseBuyClose J l = .error e) :
    (∃ x m, e = .wrap x m) ∨ ∃ r, e = BadRequestErrorf l.Tag r ∧
      r.data.reverse.take 2 = ['d', 'e'] := by
  unfold caseBuyClose at h
  split at h
  · simp only [Except.error.injEq] at h
    exact Or.inl ⟨_, _, h.symm⟩
  · split_ifs at h
    all_goals
      simp only [Except.error.injEq] at h
      exact Or.inr ⟨_, h.symm, by decide⟩

/-- No case of the tag switch returns the stale-time error. -/
theorem putLogSwitch_ne_timeTooOld (J : Unmarshal) (l : Log) (t : Int) :
    putLogSwitch J l ≠ .error (timeTooOld t) := by
  have hc : ∀ c : Except Err (Int × Int × Int),
      (∀ e, c = .error e → (∃ x m, e = .wrap x m) ∨ ∃ r, e = BadRequestErrorf l.Tag r ∧
        r.data.reverse.take 2 = ['d', 'e']) → c ≠ .error (timeTooOld t) := by
    intro c hform h
    rcases hform _ h with ⟨x, m, hx⟩ | ⟨r, hr, hsuf⟩
    · simp [timeTooOld] at hx
    · simp only [timeTooOld, BadRequestErrorf, Err.badRequest.injEq] at hr
      refine append_suffix_ne _ _ _ _ (by decide) ?_ ?_ hr
      · have := congrArg List.length hsuf
        simp only [List.length_take, List.length_reverse, List.length_cons,
          List.length_nil] at this
        omega
      · rw [hsuf]
        decide
  unfold putLogSwitch
  split_ifs
  · exact hc _ (caseSignup_error J l)
  · exact hc _ (caseSignin_error J l)
  · exact hc _ (caseSellOrder_error J l)
  · exact hc _ (caseBuyOrder_error J l)
  · exact hc _ (caseBuyError_error J l)
  · exact hc _ (caseTrade_error J l)
  · exact hc _ (caseSellClose_error J l)
  · exact hc _ (caseBuyClose_error J l)
  · intro h
    simp only [BadRequestErrorf, timeTooOld, Except.error.injEq, Err.badRequest.injEq] at h
    exact append_suffix_ne _ _ _ _ (by decide) (by decide) (by decide) h.symm

/-- C7: for a record with a non-empty payload, `putLog` returns the error
`<time> time is too old` exactly when `time < now - 3600`; so a time exactly 3600 s
old, and any time not before `now`, is not rejected as stale. -/
theorem C7_stale_iff_older_than_3600 (J : Unmarshal) (db : DB) (now : Int)
    (calls : List Row) (l : Log) (appID : String) (hdata : l.Data ≠ []) :
    ((putLog J db now calls l appID).1 = some (timeTooOld l.Time) ↔ l.Time < now - 3600) ∧
    (l.Time = now - 3600 ∨ now ≤ l.Time →
      (putLog J db now calls l appID).1 ≠ some (timeTooOld l.Time)) := by
  have hlen : ¬ l.Data.length = 0 := by
    intro h
    exact hdata (List.length_eq_zero.1 h)
  have key : (putLog J db now calls l appID).1 = some (timeTooOld l.Time) ↔
      l.Time < now - 3600 := by
    constructor
    · intro h
      by_contra hnot
      have hsw := putLogSwitch_ne_timeTooOld J l l.Time
      simp only [putLog, hlen, hnot, if_false] at h
      split at h
      · rename_i e he
        simp only [Option.some.injEq] at h
        rw [h] at he
        exact hsw he
      · split at h
        · simp [timeTooOld] at h
        · simp at h
    · intro h
      simp [putLog, hlen, h]
  refine ⟨key, ?_⟩
  intro h hs
  have := key.1 hs
  omega

/-- C7, on a record 3601 s old (rejected) and the same record 3600 s old (the
stale-time error is not returned). -/
theorem C7_stale_iff_older_than_3600_witness :
    (putLog sampleUnmarshal okDB 3601 [] ⟨"trade", 0, tradeData⟩ "app1").1
      = some (timeTooOld 0) ∧
    (putLog sampleUnmarshal okDB 3600 [] ⟨"trade", 0, tradeData⟩ "app1").1
      ≠ some (timeTooOld 0) :=
  ⟨(C7_stale_iff_older_than_3600 sampleUnmarshal okDB 3601 [] ⟨"trade", 0, tradeData⟩
      "app1" (by decide)).1.2 (by decide),
    (C7_stale_iff_older_than_3600 sampleUnmarshal okDB 3600 [] ⟨"trade", 0, tradeData⟩
      "app1" (by decide)).2 (Or.inl (by decide))⟩

/-- The case `"signup"` returns a `badRequestErr` when a required field is missing. -/
theorem caseSignup_incomplete (J : Unmarshal) (l : Log) (d : _) (hd : J.signup l.Data = .ok d)
    (hreq : (Payload.signup d).complete = false) :
    ∃ e, caseSignup J l = .error (.badRequest e) := by
  simp only [Payload.complete, Bool.and_eq_false_iff, bne_eq_false_iff_eq] at hreq
  simp only [caseSignup, hd]
  split_ifs
  all_goals first | exact ⟨_, rfl⟩ | (exfalso; tauto)

/-- The case `"signin"` returns a `badRequestErr` when a required field is missing. -/
theorem caseSignin_incomplete (J : Unmarshal) (l : Log) (d : _) (hd : J.signin l.Data = .ok d)
    (hreq : (Payload.signin d).complete = false) :
    ∃ e, caseSignin J l = .error (.badRequest e) := by
  simp only [Payload.complete, Bool.and_eq_false_iff, bne_eq_false_iff_eq] at hreq
  simp only [caseSignin, hd]
  split_ifs
  exact ⟨_, rfl⟩

/-- The case `"sell.order"` returns a `badRequestErr` when a required field is missing. -/
theorem caseSellOrder_incomplete (J : Unmarshal) (l : Log) (d : _) (hd : J.order l.Data = .ok d)
    (hreq : (Payload.sellOrder d).complete = false) :
    ∃ e, caseSellOrder J l = .error (.badRequest e) := by
  simp only [Payload.complete, Bool.and_eq_false_iff, bne_eq_false_iff_eq] at hreq
  simp only [caseSellOrder, hd]
  split_ifs
  all_goals first | exact ⟨_, rfl⟩ | (exfalso; tauto)

/-- The case `"buy.order"` returns a `badRequestErr` when a required field is missing. -/
theorem caseBuyOrder_incomplete (J : Unmarshal) (l : Log) (d : _) (hd : J.order l.Data = .ok d)
    (hreq : (Payload.buyOrder d).complete = false) :
    ∃ e, caseBuyOrder J l = .error (.badRequest e) := by
  simp only [Payload.complete, Bool.and_eq_false_iff, bne_eq_false_iff_eq] at hreq
  simp only [caseBuyOrder, hd]
  split_ifs
  all_goals first | exact ⟨_, rfl⟩ | (exfalso; tauto)

/-- The case `"buy.error"` returns a `badRequestErr` when a required field is missing. -/
theorem caseBuyError_incomplete (J : Unmarshal) (l : Log) (d : _) (hd : J.buyError l.Data = .ok d)
    (hreq : (Payload.buyError d).complete = false) :
    ∃ e, caseBuyError J l = .error (.badRequest e) := by
  simp only [Payload.complete, Bool.and_eq_false_iff, bne_eq_false_iff_eq] at hreq
  simp only [caseBuyError, hd]
  split_ifs
  all_goals first | exact ⟨_, rfl⟩ | (exfalso; tauto)

/-- The case `"trade"` returns a `badRequestErr` when a required field is missing. -/
theorem caseTrade_incomplete (J : Unmarshal) (l : Log) (d : _) (hd : J.trade l.Data = .ok d)
    (hreq : (Payload.trade d).complete = false) :
    ∃ e, caseTrade J l = .error (.badRequest e) := by
  simp only [Payload.complete, Bool.and_eq_false_iff, bne_eq_false_iff_eq] at hreq
  simp only [caseTrade, hd]
  split_ifs
  all_goals first | exact ⟨_, rfl⟩ | (exfalso; tauto)

/-- The case `"sell.close"` returns a `badRequestErr` when a required field is missing. -/
theorem caseSellClose_incomplete (J : Unmarshal) (l : Log) (d : _) (hd : J.sellClose l.Data = .ok d)
    (hreq : (Payload.sellClose d).complete = false) :
    ∃ e, caseSellClose J l = .error (.badRequest e) := by
  simp only [Payload.complete, Bool.and_eq_false_iff, bne_eq_false_iff_eq] at hreq
  simp only [caseSellClose, hd]
  split_ifs
  all_goals first | exact ⟨_, rfl⟩ | (exfalso; tauto)

/-- The case `"buy.close"` returns a `badRequestErr` when a required field is missing. -/
theorem caseBuyClose_incomplete (J : Unmarshal) (l : Log) (d : _) (hd : J.buyClose l.Data = .ok d)
    (hreq : (Payload.buyClose d).complete = false) :
    ∃ e, caseBuyClose J l = .error (.badRequest e) := by
  simp only [Payload.complete, Bool.and_eq_false_iff, bne_eq_false_iff_eq] at hreq
  simp only [caseBuyClose, hd]
  split_ifs
  all_goals first | exact ⟨_, rfl⟩ | (exfalso; tauto)

/-- When the two first checks pass, an error of the tag switch is the result of
`putLog`, and the sink is not called. -/
theorem putLog_of_switch_error (J : Unmarshal) (db : DB) (now : Int) (calls : List Row)
    (l : Log) (appID : String) (e : Err) (hlen : ¬ l.Data.length = 0)
    (hnot : ¬ l.Time < now - 3600) (h : putLogSwitch J l = .error e) :
    putLog J db now calls l appID = (some e, calls) := by
  simp [putLog, hlen, hnot, h]

/-- C8: a record whose tag is none of the eight tags (the empty tag included) makes
`putLog` return a `badRequestErr`, whatever its time and payload, and the sink is not
called. -/
theorem C8_unknown_tag_is_caller_fault (J : Unmarshal) (db : DB) (now : Int)
    (calls : List Row) (l : Log) (appID : String) (htag : l.Tag ∉ knownTags) :
    ∃ e, putLog J db now calls l appID = (some (.badRequest e), calls) := by
  simp only [knownTags, List.mem_cons, List.mem_singleton, List.not_mem_nil, or_false,
    not_or] at htag
  obtain ⟨h1, h2, h3, h4, h5, h6, h7, h8⟩ := htag
  unfold putLog
  split_ifs
  · exact ⟨_, rfl⟩
  · exact ⟨_, rfl⟩
  · simp only [putLogSwitch, h1, h2, h3, h4, h5, h6, h7, h8, if_false]
    exact ⟨_, rfl⟩

/-- C8, on a record with the empty tag. -/
theorem C8_unknown_tag_is_caller_fault_witness :
    ∃ e, putLog sampleUnmarshal okDB 1000 [] ⟨"", 1000, tradeData⟩ "app1"
      = (some (.badRequest e), []) :=
  C8_unknown_tag_is_caller_fault sampleUnmarshal okDB 1000 [] ⟨"", 1000, tradeData⟩ "app1"
    (by decide)

/-- When the time is not stale and the payload of a recognised tag decodes with a
required field missing, `putLog` returns a `badRequestErr`, and the sink is not
called. -/
theorem putLog_incomplete (J : Unmarshal) (db : DB) (now : Int)
    (calls : List Row) (l : Log) (appID : String) (p : Payload)
    (htime : now - 3600 ≤ l.Time)
    (hdec : specDecode J l.Tag l.Data = some (.ok p)) (hreq : p.complete = false) :
    ∃ e, putLog J db now calls l appID = (some (.badRequest e), calls) := by
  have hnot : ¬ l.Time < now - 3600 := by omega
  by_cases hlen : l.Data.length = 0
  · refine ⟨l.Tag ++ " data is required", ?_⟩
    simp [putLog, hlen, BadRequestErrorf]
  · have hsw : ∃ e, putLogSwitch J l = .error (.badRequest e) := by
      unfold specDecode at hdec
      split_ifs at hdec with h1 h2 h3 h4 h5 h6 h7 h8
      all_goals
        split at hdec
        · rename_i d hd
          simp only [Option.some.injEq, Except.ok.injEq] at hdec
          subst hdec
          simp only [putLogSwitch, if_true, if_false, *]
          first
          | exact caseSignup_incomplete J l d hd hreq
          | exact caseSignin_incomplete J l d hd hreq
          | exact caseSellOrder_incomplete J l d hd hreq
          | exact caseBuyOrder_incomplete J l d hd hreq
          | exact caseBuyError_incomplete J l d hd hreq
          | exact caseTrade_incomplete J l d hd hreq
          | exact caseSellClose_incomplete J l d hd hreq
          | exact caseBuyClose_incomplete J l d hd hreq
        · simp at hdec
    obtain ⟨e, he⟩ := hsw
    exact ⟨e, putLog_of_switch_error J db now calls l appID _ hlen hnot he⟩

/-- C9: for an enumerated tag and a non-stale record whose payload decodes against the
tag's shape, if a field the table requires for the tag is 0 or the empty string (an
absent field decodes to that), `putLog` returns a `badRequestErr`; the sink is not
called. -/
theorem C9_missing_field_is_caller_fault (J : Unmarshal) (db : DB) (now : Int)
    (calls : List Row) (l : Log) (appID : String) (p : Payload)
    (htime : now - 3600 ≤ l.Time)
    (hdec : specDecode J l.Tag l.Data = some (.ok p)) (hreq : p.complete = false) :
    ∃ e, putLog J db now calls l appID = (some (.badRequest e), calls) := by
  exact putLog_incomplete J db now calls l appID p htime hdec hreq

/-- C9, on the specification's scenario: `signup` with the payload `\x7b\x7d`. -/
theorem C9_missing_field_is_caller_fault_witness :
    ∃ e, putLog sampleUnmarshal okDB 1000 [] ⟨"signup", 1000, emptyObjectData⟩ "app1"
      = (some (.badRequest e), []) :=
  C9_missing_field_is_caller_fault sampleUnmarshal okDB 1000 []
    ⟨"signup", 1000, emptyObjectData⟩ "app1" (.signup ⟨"", "", 0⟩) (by decide) rfl rfl

/-- C10: `putLog` reports the earliest failing check in the order payload non-empty,
time not stale, tag recognised, payload decodes, required fields present. An empty
payload gives `data is required` whatever the time and the tag; a non-empty payload
with a stale time gives `time is too old` whatever the tag and the payload; after
these an unknown tag gives `unknown tag` whatever the decoder would do (no decoding is
attempted); then a payload that fails to decode gives the wrapped decoding error, and
only a decoded payload is checked for its required fields. In none of these cases is
the sink called. -/
theorem C10_first_failing_check_is_reported (J : Unmarshal) (db : DB) (now : Int)
    (calls : List Row) (l : Log) (appID : String) :
    (l.Data = [] →
      putLog J db now calls l appID
        = (some (BadRequestErrorf l.Tag " data is required"), calls)) ∧
    (l.Data ≠ [] → l.Time < now - 3600 →
      putLog J db now calls l appID = (some (timeTooOld l.Time), calls)) ∧
    (l.Data ≠ [] → now - 3600 ≤ l.Time → l.Tag ∉ knownTags →
      ∀ J2 : Unmarshal, putLog J2 db now calls l appID
        = (some (BadRequestErrorf l.Tag " unknown tag"), calls)) ∧
    (l.Data ≠ [] → now - 3600 ≤ l.Time →
      ∀ e, specDecode J l.Tag l.Data = some (.error e) →
        ∃ msg, putLog J db now calls l appID = (some (.wrap e msg), calls)) ∧
    (l.Data ≠ [] → now - 3600 ≤ l.Time →
      ∀ p, specDecode J l.Tag l.Data = some (.ok p) → p.complete = false →
        ∃ t, putLog J db now calls l appID = (some (.badRequest t), calls)) := by
  have hlen : l.Data ≠ [] → ¬ l.Data.length = 0 := by
    intro hdata h
    exact hdata (List.length_eq_zero.1 h)
  refine ⟨?_, ?_, ?_, ?_, ?_⟩
  · intro h
    simp [putLog, h]
  · intro hdata hstale
    simp [putLog, hlen hdata, hstale]
  · intro hdata htime htag J2
    have hnot : ¬ l.Time < now - 3600 := by omega
    simp only [knownTags, List.mem_cons, List.mem_singleton, List.not_mem_nil, or_false,
      not_or] at htag
    obtain ⟨h1, h2, h3, h4, h5, h6, h7, h8⟩ := htag
    simp [putLog, putLogSwitch, hlen hdata, hnot, h1, h2, h3, h4, h5, h6, h7, h8]
  · intro hdata htime e hdec
    exact putLog_decode_error J db now calls l appID e hdata htime hdec
  · intro hdata htime p hdec hreq
    exact putLog_incomplete J db now calls l appID p htime hdec hreq

/-- C10, on a record that fails every check at once (empty payload, stale time,
unknown tag): `data is required`; and with a payload: `time is too old`. -/
theorem C10_first_failing_check_is_reported_witness :
    putLog sampleUnmarshal okDB 5000 [] ⟨"nope", 0, []⟩ "app1"
      = (some (.badRequest "nope data is required"), []) ∧
    putLog sampleUnmarshal okDB 5000 [] ⟨"nope", 0, badSigninData⟩ "app1"
      = (some (.badRequest "0 time is too old"), []) :=
  ⟨(C10_first_failing_check_is_reported sampleUnmarshal okDB 5000 [] ⟨"nope", 0, []⟩
      "app1").1 rfl,
    (C10_first_failing_check_is_reported sampleUnmarshal okDB 5000 []
      ⟨"nope", 0, badSigninData⟩ "app1").2.1 (by decide) (by decide)⟩

/-! ## `putLog` against the specification's validated record -/

/-- A tag has no shape exactly when it is outside the enumeration. -/
theorem specDecode_eq_none (J : Unmarshal) (tag : String) (data : RawMessage) :
    specDecode J tag data = none ↔ tag ∉ knownTags := by
  simp only [knownTags, List.mem_cons, List.mem_singleton, List.not_mem_nil, or_false,
    not_or]
  unfold specDecode
  constructor
  · intro h
    split_ifs at h with h1 h2 h3 h4 h5 h6 h7 h8
    exact ⟨h1, h2, h3, h4, h5, h6, h7, h8⟩
  · rintro ⟨h1, h2, h3, h4, h5, h6, h7, h8⟩
    simp [h1, h2, h3, h4, h5, h6, h7, h8]

/-- A record with a tag outside the enumeration makes `putLog` fail without calling
the sink. -/
theorem putLog_unknown_tag (J : Unmarshal) (db : DB) (now : Int) (calls : List Row)
    (l : Log) (appID : String) (htag : l.Tag ∉ knownTags) :
    ∃ e, putLog J db now calls l appID = (some e, calls) := by
  simp only [knownTags, List.mem_cons, List.mem_singleton, List.not_mem_nil, or_false,
    not_or] at htag
  obtain ⟨h1, h2, h3, h4, h5, h6, h7, h8⟩ := htag
  unfold putLog
  split_ifs
  · exact ⟨_, rfl⟩
  · exact ⟨_, rfl⟩
  · simp only [putLogSwitch, h1, h2, h3, h4, h5, h6, h7, h8, if_false]
    exact ⟨_, rfl⟩

/-- For a payload that decodes with every required field present the tag switch
gives the specification's tag code and identifiers. -/
theorem putLogSwitch_valid (J : Unmarshal) (l : Log) (p : Payload)
    (hdec : specDecode J l.Tag l.Data = some (.ok p)) (hreq : p.complete = true) :
    putLogSwitch J l = .ok (p.tagCode, p.userID, p.tradeID) := by
  unfold specDecode at hdec
  split_ifs at hdec with h1 h2 h3 h4 h5 h6 h7 h8
  all_goals
    split at hdec
    · simp only [Option.some.injEq, Except.ok.injEq] at hdec
      subst hdec
      simp only [Payload.complete, Bool.and_eq_true, bne_iff_ne, ne_eq] at hreq
      simp [putLogSwitch, caseSignup, caseSignin, caseSellOrder, caseBuyOrder,
        caseBuyError, caseTrade, caseSellClose, caseBuyClose, *,
        Payload.tagCode, Payload.userID, Payload.tradeID, TagSignup, TagSignin,
        TagSellOrder, TagBuyOrder, TagBuyError, TagClose, TagSellClose, TagBuyClose]
    · simp at hdec

/-- A record that passes every check makes `putLog` call the sink once, with the
specification's row; the result is the sink's error wrapped, or `nil`. -/
theorem putLog_valid (J : Unmarshal) (db : DB) (now : Int) (calls : List Row) (l : Log)
    (appID : String) (p : Payload) (hdata : l.Data ≠ []) (htime : now - 3600 ≤ l.Time)
    (hdec : specDecode J l.Tag l.Data = some (.ok p)) (hreq : p.complete = true) :
    putLog J db now calls l appID
      = ((db calls ⟨appID, p.tagCode, l.Time, p.userID, p.tradeID, l.Data⟩).map
          (fun err => Err.wrap err "insert log failed"),
        calls ++ [⟨appID, p.tagCode, l.Time, p.userID, p.tradeID, l.Data⟩]) := by
  have hlen : ¬ l.Data.length = 0 := by
    intro h
    exact hdata (List.length_eq_zero.1 h)
  have hnot : ¬ l.Time < now - 3600 := by omega
  have hsw := putLogSwitch_valid J l p hdec hreq
  simp only [putLog, hlen, hnot, if_false, hsw]
  cases db calls ⟨appID, p.tagCode, l.Time, p.userID, p.tradeID, l.Data⟩ <;> rfl

/-- The refinement of `putLog` by the specification's validation: a record that
passes is written once (the call is made whether or not the sink accepts it), a record
that fails gives an error and no call. -/
theorem putLog_spec (J : Unmarshal) (db : DB) (now : Int) (calls : List Row) (l : Log)
    (appID : String) :
    (∀ row, specRow J now appID l = some row →
      putLog J db now calls l appID
        = ((db calls row).map (fun err => Err.wrap err "insert log failed"),
            calls ++ [row])) ∧
    (specRow J now appID l = none → ∃ e, putLog J db now calls l appID = (some e, calls)) := by
  by_cases hdata : l.Data = []
  · simp only [specRow, hdata, if_true]
    refine ⟨by simp, fun _ => ⟨BadRequestErrorf l.Tag " data is required", ?_⟩⟩
    simp only [putLog, hdata, List.length_nil, if_true]
  by_cases hstale : l.Time < now - 3600
  · have hlen : ¬ l.Data.length = 0 := fun h => hdata (List.length_eq_zero.1 h)
    simp only [specRow, hdata, hstale, if_true, if_false]
    refine ⟨by simp, fun _ => ⟨timeTooOld l.Time, ?_⟩⟩
    simp only [putLog, hlen, hstale, if_true, if_false]
  have htime : now - 3600 ≤ l.Time := by omega
  simp only [specRow, hdata, hstale, if_false]
  cases hdec : specDecode J l.Tag l.Data with
  | none =>
    refine ⟨by simp, fun _ => ?_⟩
    exact putLog_unknown_tag J db now calls l appID ((specDecode_eq_none J _ _).1 hdec)
  | some r =>
    cases r with
    | error e =>
      refine ⟨by simp, fun _ => ?_⟩
      obtain ⟨msg, hm⟩ := putLog_decode_error J db now calls l appID e hdata htime hdec
      exact ⟨_, hm⟩
    | ok p =>
      by_cases hreq : p.complete = true
      · simp only [hreq, if_true]
        refine ⟨?_, by simp⟩
        intro row hrow
        simp only [Option.some.injEq] at hrow
        subst hrow
        exact putLog_valid J db now calls l appID p hdata htime hdec hreq
      · simp only [hreq, if_false]
        refine ⟨by simp, fun _ => ?_⟩
        obtain ⟨e, he⟩ := putLog_incomplete J db now calls l appID p htime hdec
          (by simpa using hreq)
        exact ⟨_, he⟩

/-- C11: one call of `putLog` calls the sink at most once (the calls afterwards are
the calls before, or those and one more), and not at all when a validation check
fails: an empty payload, a stale time, a tag outside the enumeration, a payload that
does not decode or a missing required field leave the sink's calls as they were. -/
theorem C11_at_most_one_write_none_on_failure (J : Unmarshal) (db : DB) (now : Int)
    (calls : List Row) (l : Log) (appID : String) :
    ((putLog J db now calls l appID).2 = calls ∨
      ∃ row, (putLog J db now calls l appID).2 = calls ++ [row]) ∧
    (l.Data = [] ∨ l.Time < now - 3600 ∨ l.Tag ∉ knownTags ∨
        (∃ e, specDecode J l.Tag l.Data = some (.error e)) ∨
        (∃ p, specDecode J l.Tag l.Data = some (.ok p) ∧ p.complete = false) →
      (putLog J db now calls l appID).2 = calls) := by
  have hs := putLog_spec J db now calls l appID
  constructor
  · cases hrow : specRow J now appID l with
    | none =>
      obtain ⟨e, he⟩ := hs.2 hrow
      exact Or.inl (by rw [he])
    | some row => exact Or.inr ⟨row, by rw [hs.1 row hrow]⟩
  · intro hfail
    have hnone : specRow J now appID l = none := by
      unfold specRow
      rcases hfail with h | h | h | ⟨e, h⟩ | ⟨p, h, hp⟩
      · simp [h]
      · split_ifs <;> simp_all
      · rw [(specDecode_eq_none J l.Tag l.Data).2 h]
        split_ifs <;> rfl
      · rw [h]
        split_ifs <;> rfl
      · rw [h]
        simp [hp]
    obtain ⟨e, he⟩ := hs.2 hnone
    rw [he]

/-- C11, on records of the examples: the valid `trade` record is written once, and
the `signin` record whose payload does not decode leaves the sink untouched. -/
theorem C11_at_most_one_write_none_on_failure_witness :
    (putLog sampleUnmarshal okDB 1000 [] ⟨"trade", 1000, tradeData⟩ "app1").2.length ≤ 1 ∧
    (putLog sampleUnmarshal okDB 1000 [] ⟨"signin", 1000, badSigninData⟩ "app1").2 = [] := by
  refine ⟨?_, ?_⟩
  · rcases (C11_at_most_one_write_none_on_failure sampleUnmarshal okDB 1000 []
      ⟨"trade", 1000, tradeData⟩ "app1").1 with h | ⟨row, h⟩ <;> rw [h] <;> simp
  · exact (C11_at_most_one_write_none_on_failure sampleUnmarshal okDB 1000 []
      ⟨"signin", 1000, badSigninData⟩ "app1").2 (Or.inr (Or.inr (Or.inr (Or.inl ⟨_, rfl⟩))))

/-! ## `Send` and `SendBulk` under the gate -/

/-- With a free slot, `lock` followed by the release function it returned goes
through and leaves the key's slot count and counter as they were. -/
theorem gate_roundtrip (ovf : Int) (s : Handler) (k : String)
    (h : s.slots k < WorkerPerApp) :
    ∃ s1 s2, s.lock k = some (s1, s.count k + 1) ∧
      Handler.unlock ovf s1 k (s.count k + 1)
        = some (s2, releaseDelay ovf (s.count k + 1)) ∧
      s2.slots k = s.slots k ∧ s2.count k = s.count k := by
  obtain ⟨s1, hl, hc1, hs1⟩ := lock_of_free_slot s k h
  obtain ⟨s2, hu, hc2, hs2⟩ := unlock_of_held ovf s1 k (s.count k + 1) (s.slots k) hs1
  refine ⟨s1, s2, hl, hu, hs2, ?_⟩
  rw [hc2, hc1]
  omega

/-- `Send` with a non-empty key, when its `lock` and its release go through. -/
theorem Send_run (J : Unmarshal) (db : DB) (now ovf : Int) (s s1 s2 : Handler)
    (calls : List Row) (l : Log) (appID : String) (w d : Int) (hkey : appID ≠ "")
    (hl : s.lock appID = some (s1, w)) (hu : Handler.unlock ovf s1 appID w = some (s2, d)) :
    Send J db now ovf s calls (some ⟨l, appID⟩)
      = some ⟨sendResponse (putLog J db now calls l appID).1, s2,
          (putLog J db now calls l appID).2, [d]⟩ := by
  simp only [Send, hkey, if_false, hl, hu]

/-- `SendBulk` with a non-empty key, when its `lock` and its release go through. -/
theorem SendBulk_run (J : Unmarshal) (db : DB) (now : Nat → Int) (ovf : Int)
    (s s1 s2 : Handler) (calls : List Row) (logs : List Log) (appID : String) (w d : Int)
    (hkey : appID ≠ "") (hl : s.lock appID = some (s1, w))
    (hu : Handler.unlock ovf s1 appID w = some (s2, d)) :
    SendBulk J db now ovf s calls (some ⟨appID, logs⟩)
      = some ⟨bulkResponse (bulkLoop J db now appID 0 logs [] calls).1, s2,
          (bulkLoop J db now appID 0 logs [] calls).2, [d]⟩ := by
  simp only [SendBulk, hkey, if_false, hl, hu]

/-- The step of the loop of `SendBulk` on a record `putLog` accepts. -/
theorem bulkLoop_cons_none (J : Unmarshal) (db : DB) (now : Nat → Int) (appID : String)
    (i : Nat) (l : Log) (ls : List Log) (errs : List Err) (calls : List Row)
    (h : (putLog J db (now i) calls l appID).1 = none) :
    bulkLoop J db now appID i (l :: ls) errs calls
      = bulkLoop J db now appID (i + 1) ls errs (putLog J db (now i) calls l appID).2 := by
  rw [bulkLoop]
  simp only [h]

/-- The step of the loop of `SendBulk` on a record `putLog` refuses. -/
theorem bulkLoop_cons_some (J : Unmarshal) (db : DB) (now : Nat → Int) (appID : String)
    (i : Nat) (l : Log) (ls : List Log) (errs : List Err) (calls : List Row) (e : Err)
    (h : (putLog J db (now i) calls l appID).1 = some e) :
    bulkLoop J db now appID i (l :: ls) errs calls
      = bulkLoop J db now appID (i + 1) ls (errs ++ [e])
          (putLog J db (now i) calls l appID).2 := by
  rw [bulkLoop]
  simp only [h]

/-- With a sink that accepts every insert, the loop of `SendBulk` adds to the calls
the rows of the records that pass validation, in order. -/
theorem bulkLoop_calls (J : Unmarshal) (db : DB) (now : Nat → Int) (appID : String)
    (hdb : ∀ c r, db c r = none) (ls : List Log) :
    ∀ (i : Nat) (errs : List Err) (calls : List Row),
      (bulkLoop J db now appID i ls errs calls).2 = calls ++ specRows J now appID i ls := by
  induction ls with
  | nil =>
    intro i errs calls
    simp [bulkLoop, specRows]
  | cons l ls ih =>
    intro i errs calls
    have hs := putLog_spec J db (now i) calls l appID
    cases hrow : specRow J (now i) appID l with
    | none =>
      obtain ⟨e, he⟩ := hs.2 hrow
      rw [bulkLoop_cons_some J db now appID i l ls errs calls e (by rw [he]), ih, he]
      simp [specRows, hrow]
    | some row =>
      have hp := hs.1 row hrow
      rw [hdb] at hp
      rw [bulkLoop_cons_none J db now appID i l ls errs calls (by rw [hp]; rfl), ih, hp]
      simp [specRows, hrow]

/-- The row of a record that passes validation is among the rows of its batch. -/
theorem specRows_mem (J : Unmarshal) (now : Nat → Int) (appID : String) (ls : List Log) :
    ∀ (i k : Nat) (l : Log) (row : Row), ls[k]? = some l →
      specRow J (now (i + k)) appID l = some row → row ∈ specRows J now appID i ls := by
  induction ls with
  | nil =>
    intro i k l row h
    simp at h
  | cons x xs ih =>
    intro i k l row h hrow
    cases k with
    | zero =>
      simp only [List.getElem?_cons_zero, Option.some.injEq] at h
      subst h
      simp only [Nat.add_zero] at hrow
      simp [specRows, hrow]
    | succ k =>
      simp only [List.getElem?_cons_succ] at h
      have hk : i + (k + 1) = (i + 1) + k := by omega
      rw [hk] at hrow
      have := ih (i + 1) k l row h hrow
      simp [specRows, this]

/-- The loop of `SendBulk` ends without an error exactly when it started without one
and `putLog` succeeded for every record. -/
theorem bulkLoop_errs (J : Unmarshal) (db : DB) (now : Nat → Int) (appID : String)
    (ls : List Log) :
    ∀ (i : Nat) (errs : List Err) (calls : List Row),
      (bulkLoop J db now appID i ls errs calls).1 = [] ↔
        errs = [] ∧ allSucceed J db now appID i calls ls = true := by
  induction ls with
  | nil =>
    intro i errs calls
    simp [bulkLoop, allSucceed]
  | cons l ls ih =>
    intro i errs calls
    cases hp : (putLog J db (now i) calls l appID).1 with
    | none =>
      rw [bulkLoop_cons_none J db now appID i l ls errs calls hp, ih]
      simp [allSucceed, hp]
    | some e =>
      rw [bulkLoop_cons_some J db now appID i l ls errs calls e hp, ih]
      simp [allSucceed, hp]

/-- The response of `SendBulk` is the success response exactly when no error was
collected. -/
theorem bulkResponse_eq_success (errs : List Err) :
    bulkResponse errs = Success ↔ errs = [] := by
  unfold bulkResponse
  cases errs with
  | nil => simp
  | cons e es =>
    simp only [List.length_cons, Nat.zero_lt_succ, if_true]
    simp [Error, Success, StatusInternalServerError]

/-- The response of `Send` is the success response exactly when `putLog` returned
`nil`. -/
theorem sendResponse_eq_success (r : Option Err) : sendResponse r = Success ↔ r = none := by
  cases r with
  | none => simp [sendResponse]
  | some e =>
    simp only [sendResponse]
    split_ifs <;>
      simp [Error, Success, StatusBadRequest, StatusInternalServerError]

/-! ## The claims about `SendBulk` and about the sink -/

/-- C12: for a batch handled by `SendBulk` (non-empty key, free slot, a sink that
accepts every insert), the calls of the sink made by the request are, in input order,
the rows of exactly the records that pass validation, each once; so the row of every
valid record is written, whatever records before it failed. -/
theorem C12_bulk_writes_valid_records_in_order (J : Unmarshal) (db : DB) (now : Nat → Int)
    (ovf : Int) (s : Handler) (calls : List Row) (logs : List Log) (appID : String)
    (hkey : appID ≠ "") (hfree : s.slots appID < WorkerPerApp)
    (hdb : ∀ c r, db c r = none) :
    ∃ out, SendBulk J db now ovf s calls (some ⟨appID, logs⟩) = some out ∧
      out.calls = calls ++ specRows J now appID 0 logs ∧
      ∀ k l row, logs[k]? = some l → specRow J (now k) appID l = some row →
        row ∈ out.calls := by
  obtain ⟨s1, s2, hl, hu, -, -⟩ := gate_roundtrip ovf s appID hfree
  refine ⟨_, SendBulk_run J db now ovf s s1 s2 calls logs appID _ _ hkey hl hu, ?_, ?_⟩
  · exact bulkLoop_calls J db now appID hdb logs 0 [] calls
  · intro k l row hk hrow
    show row ∈ (bulkLoop J db now appID 0 logs [] calls).2
    rw [bulkLoop_calls J db now appID hdb logs 0 [] calls]
    apply List.mem_append_right
    exact specRows_mem J now appID logs 0 k l row hk (by simpa using hrow)

/-- C12, on a batch of three: a valid `trade`, a `signup` with the payload
`\x7b\x7d` (a caller fault) and a valid `signup`; the first and the third are
written, in that order. -/
theorem C12_bulk_writes_valid_records_in_order_witness :
    ∃ out, SendBulk sampleUnmarshal okDB (fun _ => 1000) (-(2 ^ 63)) Handler.empty []
        (some ⟨"app1", [⟨"trade", 1000, tradeData⟩, ⟨"signup", 1000, emptyObjectData⟩,
          ⟨"signup", 1000, signupData⟩]⟩) = some out ∧
      out.calls
        = [⟨"app1", 6, 1000, 0, 5, tradeData⟩, ⟨"app1", 1, 1000, 1, 0, signupData⟩] := by
  obtain ⟨out, h1, h2, -⟩ := C12_bulk_writes_valid_records_in_order sampleUnmarshal okDB
    (fun _ => 1000) (-(2 ^ 63)) Handler.empty []
    [⟨"trade", 1000, tradeData⟩, ⟨"signup", 1000, emptyObjectData⟩,
      ⟨"signup", 1000, signupData⟩] "app1" (by decide) (by decide) (fun _ _ => rfl)
  exact ⟨out, h1, by rw [h2]; rfl⟩

/-- C13: for a batch with a non-empty key (and a free slot, so that the request
completes), `SendBulk` answers with the success response exactly when `putLog`
succeeded for every record, which an empty batch does; otherwise it answers 500
`internal server error`, whatever the kind and number of the failures. -/
theorem C13_bulk_success_iff_all_succeed (J : Unmarshal) (db : DB) (now : Nat → Int)
    (ovf : Int) (s : Handler) (calls : List Row) (logs : List Log) (appID : String)
    (hkey : appID ≠ "") (hfree : s.slots appID < WorkerPerApp) :
    ∃ out, SendBulk J db now ovf s calls (some ⟨appID, logs⟩) = some out ∧
      (out.resp = Success ↔ allSucceed J db now appID 0 calls logs = true) ∧
      (allSucceed J db now appID 0 calls logs = false →
        out.resp = Error "internal server error" StatusInternalServerError) ∧
      (logs = [] → out.resp = Success) := by
  obtain ⟨s1, s2, hl, hu, -, -⟩ := gate_roundtrip ovf s appID hfree
  have hiff : bulkResponse (bulkLoop J db now appID 0 logs [] calls).1 = Success ↔
      allSucceed J db now appID 0 calls logs = true := by
    rw [bulkResponse_eq_success, bulkLoop_errs]
    simp
  refine ⟨_, SendBulk_run J db now ovf s s1 s2 calls logs appID _ _ hkey hl hu, hiff, ?_, ?_⟩
  · intro hfalse
    show bulkResponse (bulkLoop J db now appID 0 logs [] calls).1 = _
    have hne : (bulkLoop J db now appID 0 logs [] calls).1 ≠ [] := by
      intro h
      have := ((bulkLoop_errs J db now appID logs 0 [] calls).1 h).2
      rw [hfalse] at this
      exact Bool.noConfusion this
    unfold bulkResponse
    rw [if_pos (List.length_pos.2 hne)]
  · intro hnil
    subst hnil
    exact hiff.2 rfl

/-- C13, on a batch whose only failure is a caller fault (`signup` with the payload
`\x7b\x7d` after a valid `trade`): the answer is 500 `internal server error`. -/
theorem C13_bulk_success_iff_all_succeed_witness :
    ∃ out, SendBulk sampleUnmarshal okDB (fun _ => 1000) (-(2 ^ 63)) Handler.empty []
        (some ⟨"app1", [⟨"trade", 1000, tradeData⟩, ⟨"signup", 1000, emptyObjectData⟩]⟩)
        = some out ∧
      out.resp = ⟨500, "internal server error\n"⟩ := by
  obtain ⟨out, h1, -, h3, -⟩ := C13_bulk_success_iff_all_succeed sampleUnmarshal okDB
    (fun _ => 1000) (-(2 ^ 63)) Handler.empty []
    [⟨"trade", 1000, tradeData⟩, ⟨"signup", 1000, emptyObjectData⟩] "app1"
    (by decide) (by decide)
  exact ⟨out, h1, by rw [h3 rfl]; rfl⟩

/-- C14: for a single-record request with a non-empty key (and a free slot) whose
record passes every check, if the sink's insert fails then `Send` answers 500 with the
fixed body `internal server error` (the sink's error text is not in it), and the sink
was called exactly once. -/
theorem C14_sink_failure_answers_500 (J : Unmarshal) (db : DB) (now ovf : Int)
    (s : Handler) (calls : List Row) (l : Log) (appID : String) (p : Payload)
    (err : String) (hkey : appID ≠ "") (hfree : s.slots appID < WorkerPerApp)
    (hdata : l.Data ≠ []) (htime : now - 3600 ≤ l.Time)
    (hdec : specDecode J l.Tag l.Data = some (.ok p)) (hreq : p.complete = true)
    (hdb : db calls ⟨appID, p.tagCode, l.Time, p.userID, p.tradeID, l.Data⟩ = some err) :
    ∃ out, Send J db now ovf s calls (some ⟨l, appID⟩) = some out ∧
      out.resp = ⟨500, "internal server error\n"⟩ ∧
      out.calls = calls ++ [⟨appID, p.tagCode, l.Time, p.userID, p.tradeID, l.Data⟩] := by
  obtain ⟨s1, s2, hl, hu, -, -⟩ := gate_roundtrip ovf s appID hfree
  have hp := putLog_valid J db now calls l appID p hdata htime hdec hreq
  rw [hdb] at hp
  refine ⟨_, Send_run J db now ovf s s1 s2 calls l appID _ _ hkey hl hu, ?_, ?_⟩
  · show sendResponse (putLog J db now calls l appID).1 = _
    rw [hp]
    rfl
  · show (putLog J db now calls l appID).2 = _
    rw [hp]

/-- C14, on the valid `trade` record with a sink that refuses every insert. -/
theorem C14_sink_failure_answers_500_witness :
    ∃ out, Send sampleUnmarshal failDB 1000 (-(2 ^ 63)) Handler.empty []
        (some ⟨⟨"trade", 1000, tradeData⟩, "app1"⟩) = some out ∧
      out.resp = ⟨500, "internal server error\n"⟩ ∧
      out.calls = [] ++ [⟨"app1", 6, 1000, 0, 5, tradeData⟩] :=
  C14_sink_failure_answers_500 sampleUnmarshal failDB 1000 (-(2 ^ 63)) Handler.empty []
    ⟨"trade", 1000, tradeData⟩ "app1" (.trade ⟨5, 1, 100⟩) "Error 1040: Too many connections"
    (by decide) (by decide) (by decide) (by decide) rfl rfl rfl

/-- C18: a request to `Send` or `SendBulk` refused for an unparsable body or an empty
key leaves the gate untouched and sleeps for no release; a request that passes these
checks (run on its own, with a free slot) does one `lock(key)` and runs the release
function that `lock` returned, once, on every path (whatever the record or batch, the
empty batch included, and whatever the sink answers), and the key's slot count and
counter are afterwards what they were before. -/
theorem C18_one_lock_one_release (J : Unmarshal) (db : DB) (now : Int) (nowB : Nat → Int)
    (ovf : Int) (s : Handler) (calls : List Row) :
    Send J db now ovf s calls none
      = some ⟨Error "can't parse body" StatusBadRequest, s, calls, []⟩ ∧
    SendBulk J db nowB ovf s calls none
      = some ⟨Error "can't parse body" StatusBadRequest, s, calls, []⟩ ∧
    (∀ l, Send J db now ovf s calls (some ⟨l, ""⟩)
      = some ⟨Error "app_id is required" StatusBadRequest, s, calls, []⟩) ∧
    (∀ logs, SendBulk J db nowB ovf s calls (some ⟨"", logs⟩)
      = some ⟨Error "app_id is required" StatusBadRequest, s, calls, []⟩) ∧
    (∀ appID, appID ≠ "" → s.slots appID < WorkerPerApp →
      ∃ s1 w, s.lock appID = some (s1, w) ∧
        (∀ l, ∃ out d, Send J db now ovf s calls (some ⟨l, appID⟩) = some out ∧
          Handler.unlock ovf s1 appID w = some (out.handler, d) ∧ out.slept = [d] ∧
          out.handler.slots appID = s.slots appID ∧
          out.handler.count appID = s.count appID) ∧
        (∀ logs, ∃ out d, SendBulk J db nowB ovf s calls (some ⟨appID, logs⟩) = some out ∧
          Handler.unlock ovf s1 appID w = some (out.handler, d) ∧ out.slept = [d] ∧
          out.handler.slots appID = s.slots appID ∧
          out.handler.count appID = s.count appID)) := by
  refine ⟨rfl, rfl, fun _ => rfl, fun _ => rfl, ?_⟩
  intro appID hkey hfree
  obtain ⟨s1, s2, hl, hu, hs, hc⟩ := gate_roundtrip ovf s appID hfree
  refine ⟨s1, _, hl, ?_, ?_⟩
  · intro l
    exact ⟨_, _, Send_run J db now ovf s s1 s2 calls l appID _ _ hkey hl hu, hu, rfl, hs, hc⟩
  · intro logs
    exact ⟨_, _, SendBulk_run J db nowB ovf s s1 s2 calls logs appID _ _ hkey hl hu, hu, rfl,
      hs, hc⟩

/-- C18, on a fresh handler: the empty batch for the key `app1` completes with one
release, and leaves no slot occupied and the counter at 0. -/
theorem C18_one_lock_one_release_witness :
    ∃ out d, SendBulk sampleUnmarshal failDB (fun _ => 1000) (-(2 ^ 63)) Handler.empty []
        (some ⟨"app1", []⟩) = some out ∧
      out.slept = [d] ∧ out.handler.slots "app1" = 0 ∧ out.handler.count "app1" = 0 := by
  obtain ⟨s1, w, -, -, h⟩ := (C18_one_lock_one_release sampleUnmarshal failDB 1000
    (fun _ => 1000) (-(2 ^ 63)) Handler.empty []).2.2.2.2 "app1" (by decide) (by decide)
  obtain ⟨out, d, h1, -, h3, h4, h5⟩ := h []
  exact ⟨out, d, h1, h3, h4, h5⟩

/-- C19: for a non-empty key (and a free slot), any record, any server time and any
sink, `SendBulk` on the one-record batch makes the same calls of the sink as `Send` on
the record, and answers with success exactly when `Send` does; on a failure `Send`
answers 400 for a `badRequestErr` and 500 otherwise, `SendBulk` always 500
`internal server error`. -/
theorem C19_bulk_of_one_matches_send (J : Unmarshal) (db : DB) (now : Nat → Int)
    (ovf : Int) (s : Handler) (calls : List Row) (l : Log) (appID : String)
    (hkey : appID ≠ "") (hfree : s.slots appID < WorkerPerApp) :
    ∃ o1 o2, Send J db (now 0) ovf s calls (some ⟨l, appID⟩) = some o1 ∧
      SendBulk J db now ovf s calls (some ⟨appID, [l]⟩) = some o2 ∧
      o1.calls = o2.calls ∧
      (o1.resp = Success ↔ o2.resp = Success) ∧
      (∀ e, (putLog J db (now 0) calls l appID).1 = some e →
        o1.resp.code = (if e.isBadRequest then 400 else 500) ∧
        o2.resp = ⟨500, "internal server error\n"⟩) := by
  obtain ⟨s1, s2, hl, hu, -, -⟩ := gate_roundtrip ovf s appID hfree
  have hb : bulkLoop J db now appID 0 [l] [] calls
      = ((putLog J db (now 0) calls l appID).1.toList, (putLog J db (now 0) calls l appID).2) := by
    cases hp : (putLog J db (now 0) calls l appID).1 with
    | none =>
      rw [bulkLoop_cons_none J db now appID 0 l [] [] calls hp]
      simp [bulkLoop]
    | some e =>
      rw [bulkLoop_cons_some J db now appID 0 l [] [] calls e hp]
      simp [bulkLoop]
  refine ⟨_, _, Send_run J db (now 0) ovf s s1 s2 calls l appID _ _ hkey hl hu,
    SendBulk_run J db now ovf s s1 s2 calls [l] appID _ _ hkey hl hu, ?_, ?_, ?_⟩
  · show (putLog J db (now 0) calls l appID).2 = (bulkLoop J db now appID 0 [l] [] calls).2
    rw [hb]
  · show sendResponse (putLog J db (now 0) calls l appID).1 = Success ↔
      bulkResponse (bulkLoop J db now appID 0 [l] [] calls).1 = Success
    rw [sendResponse_eq_success, bulkResponse_eq_success, hb]
    cases (putLog J db (now 0) calls l appID).1 <;> simp
  · intro e he
    constructor
    · show (sendResponse (putLog J db (now 0) calls l appID).1).code = _
      rw [he]
      simp only [sendResponse]
      split_ifs <;> rfl
    · show bulkResponse (bulkLoop J db now appID 0 [l] [] calls).1 = _
      rw [hb, he]
      rfl

/-- C19, on the `signup` record with the payload `\x7b\x7d`: both handlers leave the
sink untouched; `Send` answers 400 and `SendBulk` 500. -/
theorem C19_bulk_of_one_matches_send_witness :
    ∃ o1 o2, Send sampleUnmarshal okDB 1000 (-(2 ^ 63)) Handler.empty []
        (some ⟨⟨"signup", 1000, emptyObjectData⟩, "app1"⟩) = some o1 ∧
      SendBulk sampleUnmarshal okDB (fun _ => 1000) (-(2 ^ 63)) Handler.empty []
        (some ⟨"app1", [⟨"signup", 1000, emptyObjectData⟩]⟩) = some o2 ∧
      o1.calls = o2.calls ∧ o1.resp.code = 400 ∧ o2.resp.code = 500 := by
  obtain ⟨o1, o2, h1, h2, h3, -, h5⟩ := C19_bulk_of_one_matches_send sampleUnmarshal okDB
    (fun _ => 1000) (-(2 ^ 63)) Handler.empty [] ⟨"signup", 1000, emptyObjectData⟩ "app1"
    (by decide) (by decide)
  have h := h5 (.badRequest "signup data.name is required") rfl
  exact ⟨o1, o2, h1, h2, h3, h.1, by rw [h.2]⟩

/-! ## The gate's transition system: what a step does -/

/-- Replacing the element at a position changes a count by what the old and the new
element contribute. -/
theorem countP_set_getElem? {α : Type} (p : α → Bool) (l : List α) :
    ∀ (i : Nat) (a b : α), l[i]? = some b →
      (l.set i a).countP p + (if p b then 1 else 0)
        = l.countP p + (if p a then 1 else 0) := by
  induction l with
  | nil =>
    intro i a b h
    simp at h
  | cons x xs ih =>
    intro i a b h
    cases i with
    | zero =>
      simp only [List.getElem?_cons_zero, Option.some.injEq] at h
      subst h
      simp only [List.set_cons_zero, List.countP_cons]
      omega
    | succ i =>
      simp only [List.getElem?_cons_succ] at h
      have := ih i a b h
      simp only [List.set_cons_succ, List.countP_cons]
      omega

theorem ensure_slots (s : Handler) (k k2 : String) : (s.ensure k).slots k2 = s.slots k2 := by
  simp only [Handler.slots, Handler.ensure]
  by_cases h : k2 = k
  · subst h
    simp only [if_true]
    cases s.guard k2 <;> rfl
  · simp only [h, if_false]

theorem ensure_count (s : Handler) (k k2 : String) : (s.ensure k).count k2 = s.count k2 := by
  simp only [Handler.count, Handler.ensure]
  by_cases h : k2 = k
  · subst h
    simp only [if_true]
    cases s.waiting k2 <;> rfl
  · simp only [h, if_false]

theorem addWaiting_slots (s : Handler) (k k2 : String) (d : Int) :
    (s.addWaiting k d).1.slots k2 = s.slots k2 := rfl

theorem addWaiting_count (s : Handler) (k k2 : String) (d : Int) :
    (s.addWaiting k d).1.count k2 = if k2 = k then s.count k + d else s.count k2 := by
  simp only [Handler.count, Handler.addWaiting]
  split_ifs <;> rfl

/-- A send that goes through found fewer than `WorkerPerApp` values in the key's
channel and added one; nothing else changed. -/
theorem send_some (s s2 : Handler) (k : String) (h : s.send k = some s2) :
    s.slots k < WorkerPerApp ∧
    (∀ k2, s2.slots k2 = if k2 = k then s.slots k + 1 else s.slots k2) ∧
    (∀ k2, s2.count k2 = s.count k2) := by
  unfold Handler.send at h
  cases hg : s.guard k with
  | none => simp [hg] at h
  | some n =>
    simp only [hg] at h
    split_ifs at h with hn
    simp only [Option.some.injEq] at h
    subst h
    refine ⟨by simpa [Handler.slots, hg] using hn, ?_, fun _ => rfl⟩
    intro k2
    simp only [Handler.slots, hg, Option.getD_some]
    split_ifs <;> rfl

/-- A receive that goes through took one value out of the key's channel; nothing
else changed. -/
theorem recv_some (s s2 : Handler) (k : String) (h : s.recv k = some s2) :
    s.slots k = s2.slots k + 1 ∧
    (∀ k2, k2 ≠ k → s2.slots k2 = s.slots k2) ∧
    (∀ k2, s2.count k2 = s.count k2) := by
  unfold Handler.recv at h
  cases hg : s.guard k with
  | none => simp [hg] at h
  | some n =>
    cases n with
    | zero => simp [hg] at h
    | succ n =>
      simp only [hg, Option.some.injEq] at h
      subst h
      refine ⟨by simp [Handler.slots, hg], ?_, fun _ => rfl⟩
      intro k2 hk
      simp [Handler.slots, hk]

theorem step_ensure (g g2 : Gate) (i : Nat) (h : g.step (.ensure i) = some g2) :
    ∃ k, g.reqs[i]? = some ⟨k, .called⟩ ∧
      g2 = ⟨g.handler.ensure k, g.reqs.set i ⟨k, .ensured⟩⟩ := by
  simp only [Gate.step] at h
  split at h
  · rename_i k hr
    exact ⟨k, hr, (Option.some.inj h).symm⟩
  · simp at h

theorem step_add (g g2 : Gate) (i : Nat) (h : g.step (.add i) = some g2) :
    ∃ k, g.reqs[i]? = some ⟨k, .ensured⟩ ∧
      g2 = ⟨(g.handler.addWaiting k 1).1,
        g.reqs.set i ⟨k, .entered (g.handler.addWaiting k 1).2⟩⟩ := by
  simp only [Gate.step] at h
  split at h
  · rename_i k hr
    exact ⟨k, hr, (Option.some.inj h).symm⟩
  · simp at h

theorem step_send (g g2 : Gate) (i : Nat) (h : g.step (.send i) = some g2) :
    ∃ k w hd, g.reqs[i]? = some ⟨k, .entered w⟩ ∧ g.handler.send k = some hd ∧
      g2 = ⟨hd, g.reqs.set i ⟨k, .holding w⟩⟩ := by
  simp only [Gate.step] at h
  split at h
  · rename_i k w hr
    split at h
    · rename_i hd hs
      exact ⟨k, w, hd, hr, hs, (Option.some.inj h).symm⟩
    · simp at h
  · simp at h

theorem step_dec (g g2 : Gate) (i : Nat) (h : g.step (.dec i) = some g2) :
    ∃ k w, g.reqs[i]? = some ⟨k, .holding w⟩ ∧
      g2 = ⟨(g.handler.addWaiting k (-1)).1, g.reqs.set i ⟨k, .leaving⟩⟩ := by
  simp only [Gate.step] at h
  split at h
  · rename_i k w hr
    exact ⟨k, w, hr, (Option.some.inj h).symm⟩
  · simp at h

theorem step_recv (g g2 : Gate) (i : Nat) (h : g.step (.recv i) = some g2) :
    ∃ k hd, g.reqs[i]? = some ⟨k, .leaving⟩ ∧ g.handler.recv k = some hd ∧
      g2 = ⟨hd, g.reqs.set i ⟨k, .done⟩⟩ := by
  simp only [Gate.step] at h
  split at h
  · rename_i k hr
    split at h
    · rename_i hd hs
      exact ⟨k, hd, hr, hs, (Option.some.inj h).symm⟩
    · simp at h
  · simp at h

/-- A property that holds in the fresh gate and is kept by every step holds in every
reachable state. -/
theorem reachable_induction (P : Gate → Prop) (h0 : P Gate.init)
    (hstep : ∀ g a g2, P g → g.step a = some g2 → P g2) (g : Gate) (hr : Reachable g) :
    P g := by
  obtain ⟨as, has⟩ := hr
  have key : ∀ (as : List Action) (g1 g2 : Gate), P g1 → g1.run as = some g2 → P g2 := by
    intro as
    induction as with
    | nil =>
      intro g1 g2 hp h
      simp only [Gate.run, Option.some.injEq] at h
      exact h ▸ hp
    | cons a as ih =>
      intro g1 g2 hp h
      simp only [Gate.run] at h
      cases hs : g1.step a with
      | none => simp [hs] at h
      | some g3 =>
        simp only [hs] at h
        exact ih g3 g2 (hstep g1 a g3 hp hs) h
  exact key as Gate.init g h0 has

/-! ## The gate's invariants -/

/-- The holders of a key after the request at position `i` changes its phase. -/
theorem holders_set (g : Gate) (hd : Handler) (i : Nat) (k k2 : String) (ph ph2 : Phase)
    (hr : g.reqs[i]? = some ⟨k, ph⟩) :
    (Gate.mk hd (g.reqs.set i ⟨k, ph2⟩)).holders k2
        + (if k2 = k ∧ ph.holdsSlot = true then 1 else 0)
      = g.holders k2 + (if k2 = k ∧ ph2.holdsSlot = true then 1 else 0) := by
  have h := countP_set_getElem? (fun r => decide (r.appid = k2) && r.phase.holdsSlot)
    g.reqs i ⟨k, ph2⟩ ⟨k, ph⟩ hr
  simp only [Bool.and_eq_true, decide_eq_true_eq] at h
  simp only [Gate.holders, eq_comm (a := k2) (b := k)]
  exact h

/-- The waiters of a key after the request at position `i` changes its phase. -/
theorem waiters_set (g : Gate) (hd : Handler) (i : Nat) (k k2 : String) (ph ph2 : Phase)
    (hr : g.reqs[i]? = some ⟨k, ph⟩) :
    (Gate.mk hd (g.reqs.set i ⟨k, ph2⟩)).waiters k2
        + (if k2 = k ∧ ph.counted = true then 1 else 0)
      = g.waiters k2 + (if k2 = k ∧ ph2.counted = true then 1 else 0) := by
  have h := countP_set_getElem? (fun r => decide (r.appid = k2) && r.phase.counted)
    g.reqs i ⟨k, ph2⟩ ⟨k, ph⟩ hr
  simp only [Bool.and_eq_true, decide_eq_true_eq] at h
  simp only [Gate.waiters, eq_comm (a := k2) (b := k)]
  exact h

/-- A new request adds no holder and no waiter. -/
theorem call_counts (g : Gate) (k k2 : String) :
    (Gate.mk g.handler (g.reqs ++ [⟨k, .called⟩])).holders k2 = g.holders k2 ∧
    (Gate.mk g.handler (g.reqs ++ [⟨k, .called⟩])).waiters k2 = g.waiters k2 := by
  simp [Gate.holders, Gate.waiters, List.countP_append, Phase.holdsSlot, Phase.counted]

/-- Every step keeps: the number of values in a key's channel is the number of
requests that hold a slot of the key, and it is at most `WorkerPerApp`. -/
theorem slots_inv_step (g : Gate) (a : Action) (g2 : Gate)
    (hinv : ∀ k, g.handler.slots k = g.holders k ∧ g.handler.slots k ≤ WorkerPerApp)
    (hs : g.step a = some g2) :
    ∀ k, g2.handler.slots k = g2.holders k ∧ g2.handler.slots k ≤ WorkerPerApp := by
  intro k2
  have h1 := (hinv k2).1
  have h2 := (hinv k2).2
  cases a with
  | call k =>
    simp only [Gate.step, Option.some.injEq] at hs
    subst hs
    rw [(call_counts g k k2).1]
    exact ⟨h1, h2⟩
  | ensure i =>
    obtain ⟨k, hr, rfl⟩ := step_ensure g g2 i hs
    have hset := holders_set g (g.handler.ensure k) i k k2 .called .ensured hr
    simp only [Phase.holdsSlot, Bool.false_eq_true, and_false, if_false, Nat.add_zero] at hset
    show (g.handler.ensure k).slots k2 = _ ∧ (g.handler.ensure k).slots k2 ≤ _
    rw [ensure_slots, hset]
    exact ⟨h1, h2⟩
  | add i =>
    obtain ⟨k, hr, rfl⟩ := step_add g g2 i hs
    have hset := holders_set g (g.handler.addWaiting k 1).1 i k k2 .ensured
      (.entered (g.handler.addWaiting k 1).2) hr
    simp only [Phase.holdsSlot, Bool.false_eq_true, and_false, if_false, Nat.add_zero] at hset
    show (g.handler.addWaiting k 1).1.slots k2 = _ ∧ (g.handler.addWaiting k 1).1.slots k2 ≤ _
    rw [addWaiting_slots, hset]
    exact ⟨h1, h2⟩
  | send i =>
    obtain ⟨k, w, hd, hr, hsend, rfl⟩ := step_send g g2 i hs
    obtain ⟨hlt, hsl, -⟩ := send_some g.handler hd k hsend
    have hset := holders_set g hd i k k2 (.entered w) (.holding w) hr
    simp only [Phase.holdsSlot, Bool.false_eq_true, and_false, if_false, Nat.add_zero,
      and_true] at hset
    show hd.slots k2 = _ ∧ hd.slots k2 ≤ _
    rw [hsl k2, hset]
    by_cases hk : k2 = k
    · subst hk
      simp only [if_true]
      omega
    · simp only [hk, if_false]
      omega
  | dec i =>
    obtain ⟨k, w, hr, rfl⟩ := step_dec g g2 i hs
    have hset := holders_set g (g.handler.addWaiting k (-1)).1 i k k2 (.holding w) .leaving hr
    simp only [Phase.holdsSlot, and_true] at hset
    show (g.handler.addWaiting k (-1)).1.slots k2 = _ ∧
      (g.handler.addWaiting k (-1)).1.slots k2 ≤ _
    rw [addWaiting_slots]
    constructor
    · omega
    · exact h2
  | recv i =>
    obtain ⟨k, hd, hr, hrecv, rfl⟩ := step_recv g g2 i hs
    obtain ⟨hone, hother, -⟩ := recv_some g.handler hd k hrecv
    have hset := holders_set g hd i k k2 .leaving .done hr
    simp only [Phase.holdsSlot, Bool.false_eq_true, and_false, if_false, Nat.add_zero,
      and_true] at hset
    show hd.slots k2 = _ ∧ hd.slots k2 ≤ _
    by_cases hk : k2 = k
    · subst hk
      simp only [if_true] at hset
      constructor <;> omega
    · simp only [hk, if_false, Nat.add_zero] at hset
      rw [hother k2 hk, hset]
      exact ⟨h1, h2⟩

/-- Every step keeps: a key's counter is the number of requests that have
incremented it and not yet decremented it. -/
theorem count_inv_step (g : Gate) (a : Action) (g2 : Gate)
    (hinv : ∀ k, g.handler.count k = (g.waiters k : Int))
    (hs : g.step a = some g2) :
    ∀ k, g2.handler.count k = (g2.waiters k : Int) := by
  intro k2
  have h1 := hinv k2
  cases a with
  | call k =>
    simp only [Gate.step, Option.some.injEq] at hs
    subst hs
    rw [(call_counts g k k2).2]
    exact h1
  | ensure i =>
    obtain ⟨k, hr, rfl⟩ := step_ensure g g2 i hs
    have hset := waiters_set g (g.handler.ensure k) i k k2 .called .ensured hr
    simp only [Phase.counted, Bool.false_eq_true, and_false, if_false, Nat.add_zero] at hset
    show (g.handler.ensure k).count k2 = _
    rw [ensure_count, hset]
    exact h1
  | add i =>
    obtain ⟨k, hr, rfl⟩ := step_add g g2 i hs
    have hset := waiters_set g (g.handler.addWaiting k 1).1 i k k2 .ensured
      (.entered (g.handler.addWaiting k 1).2) hr
    simp only [Phase.counted, Bool.false_eq_true, and_false, if_false, Nat.add_zero,
      and_true] at hset
    show (g.handler.addWaiting k 1).1.count k2 = _
    rw [addWaiting_count, hset]
    by_cases hk : k2 = k
    · subst hk
      simp only [if_true]
      omega
    · simp only [hk, if_false]
      omega
  | send i =>
    obtain ⟨k, w, hd, hr, hsend, rfl⟩ := step_send g g2 i hs
    obtain ⟨-, -, hcnt⟩ := send_some g.handler hd k hsend
    have hset := waiters_set g hd i k k2 (.entered w) (.holding w) hr
    simp only [Phase.counted, and_true] at hset
    show hd.count k2 = _
    rw [hcnt k2]
    omega
  | dec i =>
    obtain ⟨k, w, hr, rfl⟩ := step_dec g g2 i hs
    have hset := waiters_set g (g.handler.addWaiting k (-1)).1 i k k2 (.holding w) .leaving hr
    simp only [Phase.counted, Bool.false_eq_true, and_false, if_false, Nat.add_zero,
      and_true] at hset
    show (g.handler.addWaiting k (-1)).1.count k2 = _
    rw [addWaiting_count]
    by_cases hk : k2 = k
    · subst hk
      simp only [if_true] at hset ⊢
      omega
    · simp only [hk, if_false, Nat.add_zero] at hset ⊢
      omega
  | recv i =>
    obtain ⟨k, hd, hr, hrecv, rfl⟩ := step_recv g g2 i hs
    obtain ⟨-, -, hcnt⟩ := recv_some g.handler hd k hrecv
    have hset := waiters_set g hd i k k2 .leaving .done hr
    simp only [Phase.counted, Bool.false_eq_true, and_false, if_false, Nat.add_zero] at hset
    show hd.count k2 = _
    rw [hcnt k2, hset]
    exact h1

/-! ## The claims about the gate's transition system -/

/-- C15: in every state the gate reaches from the fresh server, by any interleaving of
the steps of any number of requests, the number of requests that hold a slot of a key
is the number of values in the key's channel and never exceeds `WorkerPerApp`, which
is 2. -/
theorem C15_holders_never_exceed_capacity (g : Gate) (hr : Reachable g) :
    ∀ k, g.holders k ≤ WorkerPerApp ∧ g.holders k = g.handler.slots k ∧
      WorkerPerApp = 2 := by
  have h := reachable_induction
    (fun g => ∀ k, g.handler.slots k = g.holders k ∧ g.handler.slots k ≤ WorkerPerApp)
    (fun k => ⟨rfl, Nat.zero_le _⟩) slots_inv_step g hr
  intro k
  have hk := h k
  exact ⟨by omega, hk.1.symm, rfl⟩

/-- C15, on three requests for one key: two hold a slot and the third cannot take
one. -/
theorem C15_holders_never_exceed_capacity_witness :
    ∃ g, Gate.init.run threeRequests = some g ∧ g.holders "app1" = 2 ∧
      g.holders "app1" ≤ WorkerPerApp ∧ (g.step (.send 2)).isSome = false := by
  have hsome : (Gate.init.run threeRequests).isSome = true := by decide
  obtain ⟨g, hg⟩ := Option.isSome_iff_exists.1 hsome
  have h2 : (Gate.init.run threeRequests).map (fun g => g.holders "app1") = some 2 := by
    decide
  have h3 : (Gate.init.run threeRequests).map (fun g => (g.step (.send 2)).isSome)
      = some false := by decide
  rw [hg] at h2 h3
  simp only [Option.map_some', Option.some.injEq] at h2 h3
  exact ⟨g, hg, h2, (C15_holders_never_exceed_capacity g ⟨threeRequests, hg⟩ "app1").1, h3⟩

/-- Whether a send goes through depends on the channel map only. -/
theorem send_isSome_of_guard (h1 h2 : Handler) (k : String) (hg : h2.guard = h1.guard) :
    (h2.send k).isSome = (h1.send k).isSome := by
  unfold Handler.send
  rw [hg]
  cases h1.guard k with
  | none => rfl
  | some n => by_cases hn : n < WorkerPerApp <;> simp [hn]

/-- C16: in every reachable state and for every key, the counter is not negative and
equals the number of requests that have incremented it on entering `lock(key)` and
have not yet executed the decrement of their release function; and it plays no role
in taking a slot: with the same channels and any other counters, the same sends are
enabled. -/
theorem C16_counter_counts_requests_in_gate (g : Gate) (hr : Reachable g) :
    ∀ k, 0 ≤ g.handler.count k ∧ g.handler.count k = (g.waiters k : Int) ∧
      ∀ h2 : Handler, h2.guard = g.handler.guard →
        ∀ i, ((Gate.mk h2 g.reqs).step (.send i)).isSome = (g.step (.send i)).isSome := by
  have h := reachable_induction (fun g => ∀ k, g.handler.count k = (g.waiters k : Int))
    (fun k => rfl) count_inv_step g hr
  intro k
  refine ⟨by rw [h k]; exact Int.natCast_nonneg _, h k, ?_⟩
  intro h2 hg i
  simp only [Gate.step]
  cases hreq : g.reqs[i]? with
  | none => rfl
  | some r =>
    obtain ⟨k1, ph⟩ := r
    cases ph with
    | entered w =>
      have hs := send_isSome_of_guard g.handler h2 k1 hg
      simp only
      cases hs1 : h2.send k1 with
      | none =>
        rw [hs1] at hs
        cases hs2 : g.handler.send k1 with
        | none => rfl
        | some x => rw [hs2] at hs; simp at hs
      | some y =>
        rw [hs1] at hs
        cases hs2 : g.handler.send k1 with
        | none => rw [hs2] at hs; simp at hs
        | some x => rfl
    | _ => rfl

/-- C16, on three requests for one key that have all incremented the counter: the
counter is 3. -/
theorem C16_counter_counts_requests_in_gate_witness :
    ∃ g, Gate.init.run threeRequests = some g ∧ g.waiters "app1" = 3 ∧
      g.handler.count "app1" = 3 := by
  have hsome : (Gate.init.run threeRequests).isSome = true := by decide
  obtain ⟨g, hg⟩ := Option.isSome_iff_exists.1 hsome
  have h2 : (Gate.init.run threeRequests).map (fun g => g.waiters "app1") = some 3 := by
    decide
  rw [hg] at h2
  simp only [Option.map_some', Option.some.injEq] at h2
  have h := (C16_counter_counts_requests_in_gate g ⟨threeRequests, hg⟩ "app1").2.1
  rw [h2] at h
  exact ⟨g, hg, h2, h⟩

/-- The block under `s.mux` leaves a key's channel and counter alone when they
exist: the state of a key is created once. -/
theorem ensure_of_present (s : Handler) (k : String) (n : Nat) (c : Int)
    (hg : s.guard k = some n) (hw : s.waiting k = some c) :
    (s.ensure k).guard = s.guard ∧ (s.ensure k).waiting = s.waiting := by
  constructor
  · funext k2
    simp only [Handler.ensure]
    split_ifs with h
    · subst h
      rw [hg]
    · rfl
  · funext k2
    simp only [Handler.ensure]
    split_ifs with h
    · subst h
      rw [hw]
    · rfl

/-- After the block under `s.mux` has run for a key, the key has a channel and a
counter, which a second run of the block keeps. -/
theorem ensure_twice (s : Handler) (k : String) :
    ((s.ensure k).ensure k).guard = (s.ensure k).guard ∧
    ((s.ensure k).ensure k).waiting = (s.ensure k).waiting := by
  have hg : ∃ n, (s.ensure k).guard k = some n := by
    simp only [Handler.ensure, if_true]
    cases s.guard k with
    | none => exact ⟨0, rfl⟩
    | some n => exact ⟨n, rfl⟩
  have hw : ∃ c, (s.ensure k).waiting k = some c := by
    simp only [Handler.ensure, if_true]
    cases s.waiting k with
    | none => exact ⟨0, rfl⟩
    | some c => exact ⟨c, rfl⟩
  obtain ⟨n, hn⟩ := hg
  obtain ⟨c, hc⟩ := hw
  exact ensure_of_present (s.ensure k) k n c hn hc

/-- C17 (evaluation at the failing input): with a request for the key `a` past the
block under `s.mux` and a request for the unseen key `b` about to run it, the read of
the map `s.waiting` for `atomic.AddInt64` (made without the mutex) and the write of
`s.waiting` that creates the state of `b` (made under the mutex) are both enabled and
conflict: a data race on the map. The same holds for the read of `s.guard` before the
send, once the first request has incremented its counter. -/
theorem C17_map_read_races_with_creation :
    (Gate.init.run twoKeys).map (fun g => g.race (.add 0) (.ensure 1)) = some true ∧
    (Gate.init.run twoKeys).map (fun g => g.accesses (.add 0))
      = some [⟨.waiting, false, false⟩] ∧
    (Gate.init.run twoKeys).map
        (fun g => decide (⟨.waiting, true, true⟩ ∈ g.accesses (.ensure 1)))
      = some true ∧
    (Gate.init.run (twoKeys ++ [.add 0])).map (fun g => g.race (.send 0) (.ensure 1))
      = some true := by
  decide

end Logger
